import Mathlib

/-!
Shallow embedding of the CSS parser in `src/src/main/jni/source/html/css-parse.c`
(a hand-written lexer producing a one-token-lookahead stream, and a
recursive-descent parser building a rule/selector/declaration AST).

Bytes are modelled as `Nat` (the C code reads `char`s through an `int`
cursor; 0 is the NUL terminator / end of input).  Intrusive `next`-pointer
chains are modelled as Lean lists in chain order.  Fatal `fz_css_error`
calls are modelled as `Except.error` carrying the diagnostic message text
(the `file:line` suffix of the diagnostic is not modelled).  Every loop in
the C code is modelled with an explicit fuel parameter; fuel exhaustion is
the distinct error "out of fuel", so any `Except.ok` result is a faithful
terminating run of the C code.
-/

/-- Token kinds produced by `css_lex`: the CSS_* enum constants of the
source, single characters (`t = buf->c; return t;` and the punctuation
returns), and EOF. -/
inductive Tok where
  | eof
  | chr (c : Nat)
  | keyword
  | string
  | number
  | length
  | percent
  | color
  | uri
deriving DecidableEq, Repr

/-- Lexer state: the fields of `struct lexbuf` except the parser lookahead
(kept separately in `PState`) and the diagnostic file name.  `c` is the
current byte (0 = end of input), `s` the remaining bytes after it,
`string`/`string_len` the scratch buffer and its write cursor. -/
structure Lexbuf where
  s : List Nat
  line : Nat
  c : Nat
  color : Nat
  string : List Nat
  string_len : Nat
deriving DecidableEq, Repr

/-- `css_lex_next`: advance the cursor by one byte; reading past the end of
the input yields 0.  The line counter increments on LF. -/
def css_lex_next (b : Lexbuf) : Lexbuf :=
  match b.s with
  | [] => { b with c := 0 }
  | x :: r => { b with c := x, s := r, line := if x = 10 then b.line + 1 else b.line }

/-- `css_lex_init`: point the cursor at the first byte of the source. -/
def css_lex_init (src : List Nat) : Lexbuf :=
  css_lex_next { s := src, line := 1, c := 0, color := 0, string := [], string_len := 0 }

/-- `iswhite` from the source. -/
def iswhite (c : Nat) : Bool :=
  c = 32 || c = 9 || c = 13 || c = 10 || c = 12

/-- `isnmstart` from the source. -/
def isnmstart (c : Nat) : Bool :=
  c = 92 || c = 95 || (97 ≤ c && c ≤ 122) || (65 ≤ c && c ≤ 90) || (128 ≤ c && c ≤ 255)

/-- `isnmchar` from the source. -/
def isnmchar (c : Nat) : Bool :=
  c = 92 || c = 95 || (97 ≤ c && c ≤ 122) || (65 ≤ c && c ≤ 90) ||
    (48 ≤ c && c ≤ 57) || c = 45 || (128 ≤ c && c ≤ 255)

/-- digit test `buf->c >= '0' && buf->c <= '9'` from the source. -/
def isdigit (c : Nat) : Bool :=
  48 ≤ c && c ≤ 57

/-- `css_push_char`: append one byte to the scratch buffer, failing when
1024 bytes (terminator included) would be accumulated. -/
def css_push_char (b : Lexbuf) (c : Nat) : Except String Lexbuf :=
  if b.string_len + 1 ≥ 1024 then .error "token too long"
  else .ok { b with string := b.string ++ [c], string_len := b.string_len + 1 }

/-- `css_lex_expect`: require the current byte to be `t` and consume it. -/
def css_lex_expect (b : Lexbuf) (t : Nat) : Except String Lexbuf :=
  if b.c = t then .ok (css_lex_next b) else .error "unexpected character"

/-- `ishex`: hex-digit test returning the digit value. -/
def ishex (c : Nat) : Option Nat :=
  if 48 ≤ c && c ≤ 57 then some (c - 48)
  else if 65 ≤ c && c ≤ 70 then some (c - 65 + 10)
  else if 97 ≤ c && c ≤ 102 then some (c - 97 + 10)
  else none

/-- one lowercase hex digit, as `%x` formats it. -/
def hexDig (v : Nat) : Nat :=
  if v < 10 then 48 + v else 87 + v

/-- six lowercase hex digits of `n`, as `sprintf(buf->string, "%06x", ...)`
formats the (24-bit) color accumulator. -/
def hex6 (n : Nat) : List Nat :=
  [hexDig (n / 1048576 % 16), hexDig (n / 65536 % 16), hexDig (n / 4096 % 16),
   hexDig (n / 256 % 16), hexDig (n / 16 % 16), hexDig (n % 16)]

/-- the NUL-terminated payload of the scratch buffer, as `fz_strdup` reads it. -/
def tokStr (b : Lexbuf) : List Nat :=
  b.string.takeWhile (fun x => x ≠ 0)

/-- the whitespace-skipping loop at the top of `css_lex`'s token scan. -/
def skip_white : Nat → Lexbuf → Except String Lexbuf
  | 0, _ => .error "out of fuel"
  | fuel+1, b => if iswhite b.c then skip_white fuel (css_lex_next b) else .ok b

/-- the inner `while (buf->c == '*')` loop of the comment scanner. -/
def skip_stars : Nat → Lexbuf → Except String Lexbuf
  | 0, _ => .error "out of fuel"
  | fuel+1, b => if b.c = 42 then skip_stars fuel (css_lex_next b) else .ok b

/-- the block-comment scanner of `css_lex` (everything between `/*` and the
first `*/`); returns the state from which the token scan restarts. -/
def skip_comment : Nat → Lexbuf → Except String Lexbuf
  | 0, _ => .error "out of fuel"
  | fuel+1, b =>
    if b.c = 0 then .error "unterminated comment"
    else if b.c = 42 then
      match skip_stars (fuel+1) (css_lex_next b) with
      | .error e => .error e
      | .ok b =>
        if b.c = 47 then .ok (css_lex_next b)
        else skip_comment fuel (css_lex_next b)
    else skip_comment fuel (css_lex_next b)

/-- the digit-consuming loops of `css_lex_number`. -/
def lexDigits : Nat → Lexbuf → Except String Lexbuf
  | 0, _ => .error "out of fuel"
  | fuel+1, b =>
    if isdigit b.c then
      match css_push_char b b.c with
      | .error e => .error e
      | .ok b => lexDigits fuel (css_lex_next b)
    else .ok b

/-- the nmchar-consuming loops of `css_lex_keyword` / the unit suffix of
`css_lex_number`. -/
def lexNmchars : Nat → Lexbuf → Except String Lexbuf
  | 0, _ => .error "out of fuel"
  | fuel+1, b =>
    if isnmchar b.c then
      match css_push_char b b.c with
      | .error e => .error e
      | .ok b => lexNmchars fuel (css_lex_next b)
    else .ok b

/-- `css_lex_number` (the sign, if any, has already been pushed). -/
def css_lex_number (fuel : Nat) (b : Lexbuf) : Except String (Tok × Lexbuf) :=
  match lexDigits fuel b with
  | .error e => .error e
  | .ok b =>
    match
      (if b.c = 46 then
        match css_push_char (css_lex_next b) 46 with
        | .error e => .error e
        | .ok b => lexDigits fuel b
       else .ok b : Except String Lexbuf) with
    | .error e => .error e
    | .ok b =>
      if b.c = 37 then
        match css_push_char (css_lex_next b) 37 with
        | .error e => .error e
        | .ok b =>
          match css_push_char b 0 with
          | .error e => .error e
          | .ok b => .ok (.percent, b)
      else if isnmstart b.c then
        match css_push_char b b.c with
        | .error e => .error e
        | .ok b =>
          match lexNmchars fuel (css_lex_next b) with
          | .error e => .error e
          | .ok b =>
            match css_push_char b 0 with
            | .error e => .error e
            | .ok b => .ok (.length, b)
      else
        match css_push_char b 0 with
        | .error e => .error e
        | .ok b => .ok (.number, b)

/-- `css_lex_keyword` (the leading nmstart bytes have already been pushed). -/
def css_lex_keyword (fuel : Nat) (b : Lexbuf) : Except String (Tok × Lexbuf) :=
  match lexNmchars fuel b with
  | .error e => .error e
  | .ok b =>
    match css_push_char b 0 with
    | .error e => .error e
    | .ok b => .ok (.keyword, b)

/-- `css_lex_string`: the string-literal scanner (the opening quote `q` has
already been consumed).  The C code's successive mutations of `buf` appear
here as nested `css_lex_next` applications. -/
def css_lex_string : Nat → Nat → Lexbuf → Except String (Tok × Lexbuf)
  | 0, _, _ => .error "out of fuel"
  | fuel+1, q, b =>
    if b.c ≠ 0 ∧ b.c ≠ q then
      if b.c = 92 then
        if (css_lex_next b).c = 110 then
          match css_push_char (css_lex_next (css_lex_next b)) 10 with
          | .error e => .error e
          | .ok b => css_lex_string fuel q b
        else if (css_lex_next b).c = 114 then
          match css_push_char (css_lex_next (css_lex_next b)) 13 with
          | .error e => .error e
          | .ok b => css_lex_string fuel q b
        else if (css_lex_next b).c = 102 then
          match css_push_char (css_lex_next (css_lex_next b)) 12 with
          | .error e => .error e
          | .ok b => css_lex_string fuel q b
        else if (css_lex_next b).c = 12 then css_lex_string fuel q (css_lex_next (css_lex_next b))
        else if (css_lex_next b).c = 10 then css_lex_string fuel q (css_lex_next (css_lex_next b))
        else if (css_lex_next b).c = 13 then
          css_lex_string fuel q
            (if (css_lex_next (css_lex_next b)).c = 10 then
              css_lex_next (css_lex_next (css_lex_next b))
             else css_lex_next (css_lex_next b))
        else
          match css_push_char (css_lex_next b) (css_lex_next b).c with
          | .error e => .error e
          | .ok b => css_lex_string fuel q (css_lex_next b)
      else
        match css_push_char b b.c with
        | .error e => .error e
        | .ok b => css_lex_string fuel q (css_lex_next b)
    else
      match css_lex_expect b q with
      | .error e => .error e
      | .ok b =>
        match css_push_char b 0 with
        | .error e => .error e
        | .ok b => .ok (.string, b)

/-- the `#` color branch of `css_lex` (the `#` itself has been consumed;
`b.c` is the first candidate hex digit).  Each successful
`css_lex_accept_hex` appears as one `css_lex_next`. -/
def css_lex_color (b : Lexbuf) : Except String (Tok × Lexbuf) :=
  match ishex b.c with
  | none => .error "invalid color"
  | some a =>
    match ishex (css_lex_next b).c with
    | none => .error "invalid color"
    | some v2 =>
      match ishex (css_lex_next (css_lex_next b)).c with
      | none => .error "invalid color"
      | some v3 =>
        match ishex (css_lex_next (css_lex_next (css_lex_next b))).c with
        | some d =>
          match ishex (css_lex_next (css_lex_next (css_lex_next (css_lex_next b)))).c with
          | none => .error "invalid color"
          | some e =>
            match ishex (css_lex_next (css_lex_next (css_lex_next (css_lex_next
                (css_lex_next b))))).c with
            | none => .error "invalid color"
            | some f =>
              .ok (.color,
                { css_lex_next (css_lex_next (css_lex_next (css_lex_next (css_lex_next
                    (css_lex_next b))))) with
                  color := (a <<< 20) ||| (v2 <<< 16) ||| (v3 <<< 12) |||
                           (d <<< 8) ||| (e <<< 4) ||| f,
                  string := hex6 ((a <<< 20) ||| (v2 <<< 16) ||| (v3 <<< 12) |||
                           (d <<< 8) ||| (e <<< 4) ||| f) ++ [0] })
        | none =>
          .ok (.color,
            { css_lex_next (css_lex_next (css_lex_next b)) with
              color := (a <<< 20) ||| (v2 <<< 12) ||| (v3 <<< 4),
              string := hex6 ((a <<< 20) ||| (v2 <<< 12) ||| (v3 <<< 4)) ++ [0] })

/-- the speculative `url(` branch of `css_lex` (the initial `u` has been
consumed; on failure the consumed letters are pushed back into the scratch
buffer and the scan falls through to the keyword rule). -/
def css_lex_url (fuel : Nat) (b : Lexbuf) : Except String (Tok × Lexbuf) :=
  if b.c = 114 then
    if (css_lex_next b).c = 108 then
      if (css_lex_next (css_lex_next b)).c = 40 then
        match css_lex_expect (css_lex_next (css_lex_next (css_lex_next b))) 41 with
        | .error e => .error e
        | .ok b => .ok (.uri, b)
      else
        match css_push_char (css_lex_next (css_lex_next b)) 117 with
        | .error e => .error e
        | .ok b =>
          match css_push_char b 114 with
          | .error e => .error e
          | .ok b =>
            match css_push_char b 108 with
            | .error e => .error e
            | .ok b => css_lex_keyword fuel b
    else
      match css_push_char (css_lex_next b) 117 with
      | .error e => .error e
      | .ok b =>
        match css_push_char b 114 with
        | .error e => .error e
        | .ok b => css_lex_keyword fuel b
  else
    match css_push_char b 117 with
    | .error e => .error e
    | .ok b => css_lex_keyword fuel b

/-- the non-CDC `-` branch of `css_lex` (the `-` has been consumed and the
next byte is not another `-`). -/
def css_lex_minus (fuel : Nat) (b : Lexbuf) : Except String (Tok × Lexbuf) :=
  if isdigit b.c then
    match css_push_char b 45 with
    | .error e => .error e
    | .ok b => css_lex_number fuel b
  else if isnmstart b.c then
    match css_push_char b 45 with
    | .error e => .error e
    | .ok b =>
      match css_push_char b b.c with
      | .error e => .error e
      | .ok b => css_lex_keyword fuel (css_lex_next b)
  else .ok (.chr 45, b)

/-- the token-scanning loop of `css_lex` (the body of `while (buf->c)`,
with `restart`/`continue` modelled as the recursive call).  The C code's
successive mutations of `buf` appear as nested `css_lex_next` applications:
each `css_lex_accept` that succeeded is one `css_lex_next`. -/
def css_lex_loop : Nat → Lexbuf → Except String (Tok × Lexbuf)
  | 0, _ => .error "out of fuel"
  | fuel+1, b0 =>
    match skip_white (fuel+1) b0 with
    | .error e => .error e
    | .ok b =>
      if b.c = 0 then .ok (.eof, b)
      else if b.c = 47 then
        if (css_lex_next b).c = 42 then
          match skip_comment (fuel+1) (css_lex_next (css_lex_next b)) with
          | .error e => .error e
          | .ok b => css_lex_loop fuel b
        else .ok (.chr 47, css_lex_next b)
      else if b.c = 60 then
        if (css_lex_next b).c = 33 then
          match css_lex_expect (css_lex_next (css_lex_next b)) 45 with
          | .error e => .error e
          | .ok b =>
            match css_lex_expect b 45 with
            | .error e => .error e
            | .ok b => css_lex_loop fuel b
        else .ok (.chr 60, css_lex_next b)
      else if b.c = 45 then
        if (css_lex_next b).c = 45 then
          match css_lex_expect (css_lex_next (css_lex_next b)) 62 with
          | .error e => .error e
          | .ok b => css_lex_loop fuel b
        else css_lex_minus (fuel+1) (css_lex_next b)
      else if b.c = 43 then
        if isdigit (css_lex_next b).c then css_lex_number (fuel+1) (css_lex_next b)
        else .ok (.chr 43, css_lex_next b)
      else if b.c = 46 then
        if isdigit (css_lex_next b).c then
          match css_push_char (css_lex_next b) 46 with
          | .error e => .error e
          | .ok b => css_lex_number (fuel+1) b
        else .ok (.chr 46, css_lex_next b)
      else if b.c = 35 then css_lex_color (css_lex_next b)
      else if b.c = 34 then css_lex_string (fuel+1) 34 (css_lex_next b)
      else if b.c = 39 then css_lex_string (fuel+1) 39 (css_lex_next b)
      else if isdigit b.c then css_lex_number (fuel+1) b
      else if b.c = 117 then css_lex_url (fuel+1) (css_lex_next b)
      else if isnmstart b.c then
        match css_push_char b b.c with
        | .error e => .error e
        | .ok b => css_lex_keyword (fuel+1) (css_lex_next b)
      else .ok (.chr b.c, css_lex_next b)

/-- `css_lex`: reset the scratch cursor and scan one token.  (The C code
resets only `string_len`; the stale buffer bytes beyond it are never
meaningful for a returned token's payload except for `CSS_URI`, whose
payload the source discards, so the buffer is modelled as reset too.) -/
def css_lex (fuel : Nat) (b : Lexbuf) : Except String (Tok × Lexbuf) :=
  css_lex_loop fuel { b with string := [], string_len := 0 }

/-! ## AST -/

/-- `fz_css_condition` (one node; the `next` chain is a list). -/
structure Condition where
  type : Nat
  key : List Nat
  val : Option (List Nat)
deriving DecidableEq, Repr

/-- `fz_css_selector`: a leaf carries `name`/`cond`; a combinator node
carries `combine` and both children. -/
inductive Selector where
  | mk (name : Option (List Nat)) (combine : Nat) (cond : List Condition)
       (left : Option Selector) (right : Option Selector)

/-- `fz_css_value` (the `next` chain is a list; `args` is the argument
chain of a functional value). -/
inductive Value where
  | mk (type : Tok) (data : List Nat) (args : List Value)

/-- the `type` field of a value. -/
def Value.type : Value → Tok
  | .mk t _ _ => t

/-- the `data` field of a value. -/
def Value.data : Value → List Nat
  | .mk _ d _ => d

/-- `fz_css_property` (one node; the `next` chain is a list). -/
structure Property where
  name : List Nat
  value : List Value
  spec : Nat

/-- `fz_css_rule` (one node; the `next` chain is a list). -/
structure Rule where
  selector : List Selector
  declaration : List Property
  garbage : List Property

/-! ## Token stream and parser -/

/-- parser state: the one-token lookahead plus the lexer state (the
`lookahead` field of `struct lexbuf`, kept separately). -/
structure PState where
  la : Tok
  buf : Lexbuf
deriving DecidableEq, Repr


/-- `next`: advance the lookahead. -/
def next (fuel : Nat) (st : PState) : Except String PState :=
  match css_lex fuel st.buf with
  | .error e => .error e
  | .ok (t, b) => .ok ⟨t, b⟩

/-- `accept`: consume the lookahead if it is `t`. -/
def accept (fuel : Nat) (t : Tok) (st : PState) : Except String (Bool × PState) :=
  if st.la = t then
    match next fuel st with
    | .error e => .error e
    | .ok st => .ok (true, st)
  else .ok (false, st)

/-- `expect`: require the lookahead to be `t` and consume it. -/
def expect (fuel : Nat) (t : Tok) (st : PState) : Except String PState :=
  if st.la = t then next fuel st else .error "unexpected token"

/-- `iscond` from the source. -/
def iscond (t : Tok) : Bool :=
  t = .chr 58 || t = .chr 46 || t = .chr 35 || t = .chr 91

mutual

/-- `parse_value`. -/
def parse_value : Nat → PState → Except String (Value × PState)
  | 0, _ => .error "out of fuel"
  | fuel+1, st =>
    if st.la = .keyword then
      let data := tokStr st.buf
      match next (fuel+1) st with
      | .error e => .error e
      | .ok st =>
        if st.la = .chr 40 then
          match next (fuel+1) st with
          | .error e => .error e
          | .ok st =>
            match parse_value_list fuel st with
            | .error e => .error e
            | .ok (args, st) =>
              match expect (fuel+1) (.chr 41) st with
              | .error e => .error e
              | .ok st => .ok (.mk (.chr 40) data args, st)
        else .ok (.mk .keyword data [], st)
    else if st.la = .number || st.la = .length || st.la = .percent ||
            st.la = .string || st.la = .color || st.la = .uri then
      let v : Value := .mk st.la (tokStr st.buf) []
      match next (fuel+1) st with
      | .error e => .error e
      | .ok st => .ok (v, st)
    else if st.la = .chr 44 then
      match next (fuel+1) st with
      | .error e => .error e
      | .ok st => .ok (.mk (.chr 44) [44] [], st)
    else if st.la = .chr 47 then
      match next (fuel+1) st with
      | .error e => .error e
      | .ok st => .ok (.mk (.chr 47) [47] [], st)
    else .error "expected value"

/-- `parse_value_list`. -/
def parse_value_list : Nat → PState → Except String (List Value × PState)
  | 0, _ => .error "out of fuel"
  | fuel+1, st =>
    if st.la = .chr 125 || st.la = .chr 59 || st.la = .chr 33 ||
       st.la = .chr 41 || st.la = .eof then .ok ([], st)
    else
      match parse_value fuel st with
      | .error e => .error e
      | .ok (v, st) =>
        match parse_value_list fuel st with
        | .error e => .error e
        | .ok (vs, st) => .ok (v :: vs, st)

end

/-- `parse_declaration`. -/
def parse_declaration (fuel : Nat) (st : PState) : Except String (Property × PState) :=
  if st.la = .keyword then
    let name := tokStr st.buf
    match next fuel st with
    | .error e => .error e
    | .ok st =>
      match expect fuel (.chr 58) st with
      | .error e => .error e
      | .ok st =>
        match parse_value_list fuel st with
        | .error e => .error e
        | .ok (vals, st) =>
          if st.la = .chr 33 then
            match next fuel st with
            | .error e => .error e
            | .ok st =>
              match expect fuel .keyword st with
              | .error e => .error e
              | .ok st => .ok (⟨name, vals, 0⟩, st)
          else .ok (⟨name, vals, 0⟩, st)
  else .error "expected keyword in property"

/-- the `while (accept(buf, ';'))` loop of `parse_declaration_list`. -/
def declLoop : Nat → PState → Except String (List Property × PState)
  | 0, _ => .error "out of fuel"
  | fuel+1, st =>
    if st.la = .chr 59 then
      match next (fuel+1) st with
      | .error e => .error e
      | .ok st =>
        if st.la ≠ .chr 125 ∧ st.la ≠ .chr 59 ∧ st.la ≠ .eof then
          match parse_declaration (fuel+1) st with
          | .error e => .error e
          | .ok (p, st) =>
            match declLoop fuel st with
            | .error e => .error e
            | .ok (ps, st) => .ok (p :: ps, st)
        else declLoop fuel st
    else .ok ([], st)

/-- `parse_declaration_list`. -/
def parse_declaration_list (fuel : Nat) (st : PState) :
    Except String (List Property × PState) :=
  if st.la = .chr 125 || st.la = .eof then .ok ([], st)
  else
    match parse_declaration fuel st with
    | .error e => .error e
    | .ok (p, st) =>
      match declLoop fuel st with
      | .error e => .error e
      | .ok (ps, st) => .ok (p :: ps, st)

/-- `parse_attrib_value`. -/
def parse_attrib_value (fuel : Nat) (st : PState) :
    Except String (List Nat × PState) :=
  if st.la = .keyword || st.la = .string then
    let s := tokStr st.buf
    match next fuel st with
    | .error e => .error e
    | .ok st => .ok (s, st)
  else .error "expected attribute value"

/-- `parse_condition`. -/
def parse_condition (fuel : Nat) (st : PState) :
    Except String (Condition × PState) :=
  if st.la = .chr 58 then
    match next fuel st with
    | .error e => .error e
    | .ok st =>
      if st.la = .keyword then
        let c : Condition := ⟨58, [112, 115, 101, 117, 100, 111], some (tokStr st.buf)⟩
        match next fuel st with
        | .error e => .error e
        | .ok st => .ok (c, st)
      else .error "expected keyword after ':'"
  else if st.la = .chr 46 then
    match next fuel st with
    | .error e => .error e
    | .ok st =>
      if st.la = .keyword then
        let c : Condition := ⟨46, [99, 108, 97, 115, 115], some (tokStr st.buf)⟩
        match next fuel st with
        | .error e => .error e
        | .ok st => .ok (c, st)
      else .error "expected keyword after '.'"
  else if st.la = .chr 35 then
    match next fuel st with
    | .error e => .error e
    | .ok st =>
      if st.la = .keyword then
        let c : Condition := ⟨35, [105, 100], some (tokStr st.buf)⟩
        match next fuel st with
        | .error e => .error e
        | .ok st => .ok (c, st)
      else .error "expected keyword after '#'"
  else if st.la = .chr 91 then
    match next fuel st with
    | .error e => .error e
    | .ok st =>
      if st.la = .keyword then
        let key := tokStr st.buf
        match next fuel st with
        | .error e => .error e
        | .ok st =>
          match
            (if st.la = .chr 61 then
              match next fuel st with
              | .error e => .error e
              | .ok st =>
                match parse_attrib_value fuel st with
                | .error e => .error e
                | .ok (v, st) => .ok ((⟨61, key, some v⟩ : Condition), st)
             else if st.la = .chr 124 then
              match next fuel st with
              | .error e => .error e
              | .ok st =>
                match expect fuel (.chr 61) st with
                | .error e => .error e
                | .ok st =>
                  match parse_attrib_value fuel st with
                  | .error e => .error e
                  | .ok (v, st) => .ok ((⟨124, key, some v⟩ : Condition), st)
             else if st.la = .chr 126 then
              match next fuel st with
              | .error e => .error e
              | .ok st =>
                match expect fuel (.chr 61) st with
                | .error e => .error e
                | .ok st =>
                  match parse_attrib_value fuel st with
                  | .error e => .error e
                  | .ok (v, st) => .ok ((⟨126, key, some v⟩ : Condition), st)
             else .ok ((⟨91, key, none⟩ : Condition), st) :
               Except String (Condition × PState)) with
          | .error e => .error e
          | .ok (c, st) =>
            match expect fuel (.chr 93) st with
            | .error e => .error e
            | .ok st => .ok (c, st)
      else .error "expected keyword after '['"
  else .error "expected condition"

/-- the `while (iscond(buf->lookahead))` loop of `parse_condition_list`. -/
def condLoop : Nat → PState → Except String (List Condition × PState)
  | 0, _ => .error "out of fuel"
  | fuel+1, st =>
    if iscond st.la then
      match parse_condition (fuel+1) st with
      | .error e => .error e
      | .ok (c, st) =>
        match condLoop fuel st with
        | .error e => .error e
        | .ok (cs, st) => .ok (c :: cs, st)
    else .ok ([], st)

/-- `parse_condition_list`. -/
def parse_condition_list (fuel : Nat) (st : PState) :
    Except String (List Condition × PState) :=
  match parse_condition fuel st with
  | .error e => .error e
  | .ok (c, st) =>
    match condLoop fuel st with
    | .error e => .error e
    | .ok (cs, st) => .ok (c :: cs, st)

/-- `parse_simple_selector`. -/
def parse_simple_selector (fuel : Nat) (st : PState) :
    Except String (Selector × PState) :=
  if st.la = .chr 42 then
    match next fuel st with
    | .error e => .error e
    | .ok st =>
      if iscond st.la then
        match parse_condition_list fuel st with
        | .error e => .error e
        | .ok (cs, st) => .ok (.mk none 0 cs none none, st)
      else .ok (.mk none 0 [] none none, st)
  else if st.la = .keyword then
    let n := tokStr st.buf
    match next fuel st with
    | .error e => .error e
    | .ok st =>
      if iscond st.la then
        match parse_condition_list fuel st with
        | .error e => .error e
        | .ok (cs, st) => .ok (.mk (some n) 0 cs none none, st)
      else .ok (.mk (some n) 0 [] none none, st)
  else if iscond st.la then
    match parse_condition_list fuel st with
    | .error e => .error e
    | .ok (cs, st) => .ok (.mk none 0 cs none none, st)
  else .error "expected selector"

/-- `parse_adjacent_selector`. -/
def parse_adjacent_selector : Nat → PState → Except String (Selector × PState)
  | 0, _ => .error "out of fuel"
  | fuel+1, st =>
    match parse_simple_selector (fuel+1) st with
    | .error e => .error e
    | .ok (a, st) =>
      match accept (fuel+1) (.chr 43) st with
      | .error e => .error e
      | .ok (r, st) =>
        if r then
          match parse_adjacent_selector fuel st with
          | .error e => .error e
          | .ok (b, st) => .ok (.mk none 43 [] (some a) (some b), st)
        else .ok (a, st)

/-- `parse_child_selector`. -/
def parse_child_selector : Nat → PState → Except String (Selector × PState)
  | 0, _ => .error "out of fuel"
  | fuel+1, st =>
    match parse_adjacent_selector (fuel+1) st with
    | .error e => .error e
    | .ok (a, st) =>
      match accept (fuel+1) (.chr 62) st with
      | .error e => .error e
      | .ok (r, st) =>
        if r then
          match parse_child_selector fuel st with
          | .error e => .error e
          | .ok (b, st) => .ok (.mk none 62 [] (some a) (some b), st)
        else .ok (a, st)

/-- `parse_descendant_selector`. -/
def parse_descendant_selector : Nat → PState → Except String (Selector × PState)
  | 0, _ => .error "out of fuel"
  | fuel+1, st =>
    match parse_child_selector (fuel+1) st with
    | .error e => .error e
    | .ok (a, st) =>
      if st.la ≠ .chr 44 ∧ st.la ≠ .chr 123 ∧ st.la ≠ .eof then
        match parse_descendant_selector fuel st with
        | .error e => .error e
        | .ok (b, st) => .ok (.mk none 32 [] (some a) (some b), st)
      else .ok (a, st)

/-- the `while (accept(buf, ','))` loop of `parse_selector_list`. -/
def selLoop : Nat → PState → Except String (List Selector × PState)
  | 0, _ => .error "out of fuel"
  | fuel+1, st =>
    match accept (fuel+1) (.chr 44) st with
    | .error e => .error e
    | .ok (r, st) =>
      if r then
        match parse_descendant_selector (fuel+1) st with
        | .error e => .error e
        | .ok (s, st) =>
          match selLoop fuel st with
          | .error e => .error e
          | .ok (ss, st) => .ok (s :: ss, st)
      else .ok ([], st)

/-- `parse_selector_list`. -/
def parse_selector_list (fuel : Nat) (st : PState) :
    Except String (List Selector × PState) :=
  match parse_descendant_selector fuel st with
  | .error e => .error e
  | .ok (s, st) =>
    match selLoop fuel st with
    | .error e => .error e
    | .ok (ss, st) => .ok (s :: ss, st)

/-- `parse_rule`. -/
def parse_rule (fuel : Nat) (st : PState) : Except String (Rule × PState) :=
  match parse_selector_list fuel st with
  | .error e => .error e
  | .ok (sels, st) =>
    match expect fuel (.chr 123) st with
    | .error e => .error e
    | .ok st =>
      match parse_declaration_list fuel st with
      | .error e => .error e
      | .ok (ps, st) =>
        match expect fuel (.chr 125) st with
        | .error e => .error e
        | .ok st => .ok (⟨sels, ps, []⟩, st)

/-- the brace-matching loop of `parse_at_rule`. -/
def skipBlock : Nat → Nat → PState → Except String PState
  | 0, _, _ => .error "out of fuel"
  | fuel+1, depth, st =>
    if st.la = .eof || depth = 0 then .ok st
    else
      match accept (fuel+1) (.chr 123) st with
      | .error e => .error e
      | .ok (r, st) =>
        if r then skipBlock fuel (depth+1) st
        else
          match accept (fuel+1) (.chr 125) st with
          | .error e => .error e
          | .ok (r2, st) =>
            if r2 then skipBlock fuel (depth-1) st
            else
              match next (fuel+1) st with
              | .error e => .error e
              | .ok st => skipBlock fuel depth st

/-- the `skip until '{' or ';'` loop of `parse_at_rule`. -/
def atLoop : Nat → PState → Except String PState
  | 0, _ => .error "out of fuel"
  | fuel+1, st =>
    if st.la = .eof then .ok st
    else
      match accept (fuel+1) (.chr 59) st with
      | .error e => .error e
      | .ok (r, st) =>
        if r then .ok st
        else
          match accept (fuel+1) (.chr 123) st with
          | .error e => .error e
          | .ok (r2, st) =>
            if r2 then skipBlock fuel 1 st
            else
              match next (fuel+1) st with
              | .error e => .error e
              | .ok st => atLoop fuel st

/-- `parse_at_rule` (the `@` itself has already been consumed). -/
def parse_at_rule (fuel : Nat) (st : PState) : Except String PState :=
  match expect fuel .keyword st with
  | .error e => .error e
  | .ok st => atLoop fuel st

/-- the `while (buf->lookahead != EOF)` loop of `parse_stylesheet`,
returning the newly parsed rules in order. -/
def styLoop : Nat → PState → Except String (List Rule × PState)
  | 0, _ => .error "out of fuel"
  | fuel+1, st =>
    if st.la = .eof then .ok ([], st)
    else if st.la = .chr 64 then
      match next (fuel+1) st with
      | .error e => .error e
      | .ok st =>
        match parse_at_rule (fuel+1) st with
        | .error e => .error e
        | .ok st => styLoop fuel st
    else
      match parse_rule (fuel+1) st with
      | .error e => .error e
      | .ok (r, st) =>
        match styLoop fuel st with
        | .error e => .error e
        | .ok (rs, st) => .ok (r :: rs, st)

/-- `parse_stylesheet`: append the newly parsed rules at the tail of
`chain` (the C code splices them through the tail `next` pointer and
returns the original head when `chain` is nonempty). -/
def parse_stylesheet (fuel : Nat) (st : PState) (chain : List Rule) :
    Except String (List Rule) :=
  match styLoop fuel st with
  | .error e => .error e
  | .ok (rs, _) => .ok (chain ++ rs)

/-- `fz_parse_css_properties`. -/
def fz_parse_css_properties (fuel : Nat) (source : List Nat) :
    Except String (List Property) :=
  match next fuel ⟨.eof, css_lex_init source⟩ with
  | .error e => .error e
  | .ok st =>
    match parse_declaration_list fuel st with
    | .error e => .error e
    | .ok (ps, _) => .ok ps

/-- `fz_parse_css`. -/
def fz_parse_css (fuel : Nat) (chain : List Rule) (source : List Nat) :
    Except String (List Rule) :=
  match next fuel ⟨.eof, css_lex_init source⟩ with
  | .error e => .error e
  | .ok st => parse_stylesheet fuel st chain

/-- ASCII bytes of a source string (all inputs used here are ASCII). -/
def bytes (s : String) : List Nat :=
  s.data.map Char.toNat

/-- projection of a lexer result to the produced token and scratch buffer,
forgetting the cursor bookkeeping (used to compare payloads of runs that
differ only in line accounting). -/
def lexProj (r : Except String (Tok × Lexbuf)) : Except String (Tok × List Nat) :=
  r.map (fun p => (p.1, p.2.string))

/-- rule-side extension of a lexer state: the same scan with `}` appended
to the input. -/
def extb (b : Lexbuf) : Lexbuf :=
  if b.c = 0 then { b with c := 125, s := [] } else { b with s := b.s ++ [125] }

/-- well-formed mid-scan lexer state: no NUL among the remaining bytes,
and the cursor reads 0 only once the input is exhausted. -/
def wfb (b : Lexbuf) : Prop :=
  (0 ∉ b.s) ∧ (b.c = 0 → b.s = [])


/-- the common suffix of `css_lex_number` after the digit/fraction scan. -/
def numTail (fuel : Nat) (b : Lexbuf) : Except String (Tok × Lexbuf) :=
  if b.c = 37 then
    match css_push_char (css_lex_next b) 37 with
    | .error e => .error e
    | .ok b =>
      match css_push_char b 0 with
      | .error e => .error e
      | .ok b => .ok (.percent, b)
  else if isnmstart b.c then
    match css_push_char b b.c with
    | .error e => .error e
    | .ok b =>
      match lexNmchars fuel (css_lex_next b) with
      | .error e => .error e
      | .ok b =>
        match css_push_char b 0 with
        | .error e => .error e
        | .ok b => .ok (.length, b)
  else
    match css_push_char b 0 with
    | .error e => .error e
    | .ok b => .ok (.number, b)


/-- parser-state simulation relation: the extended scan agrees with the base
scan token for token until the base hits end of input, at which point the
extended side holds the closing-brace token over the shared terminal lexer
state. -/
def pext (st stx : PState) : Prop :=
  (st.la ≠ .eof ∧ stx.la = st.la ∧ stx.buf = extb st.buf ∧ wfb st.buf) ∨
  (st.la = .eof ∧ stx.la = .chr 125 ∧ stx.buf = st.buf ∧ st.buf.c = 0 ∧ st.buf.s = [])

/-! ## Helper lemmas -/

/-- `css_lex_keyword` only ever produces the keyword token. -/
theorem css_lex_keyword_kind {f : Nat} {b : Lexbuf} {t : Tok} {b' : Lexbuf}
    (h : css_lex_keyword f b = .ok (t, b')) : t = .keyword := by
  unfold css_lex_keyword at h
  repeat' (first | (split at h) | (simp only [] at h))
  all_goals simp_all

/-- `css_lex_number` only ever produces percent, length or number tokens. -/
theorem css_lex_number_kind {f : Nat} {b : Lexbuf} {t : Tok} {b' : Lexbuf}
    (h : css_lex_number f b = .ok (t, b')) :
    t = .percent ∨ t = .length ∨ t = .number := by
  unfold css_lex_number at h
  repeat' (first | (split at h) | (simp only [] at h))
  all_goals simp_all

/-- `css_lex_string` only ever produces the string token. -/
theorem css_lex_string_kind : ∀ {f q : Nat} {b : Lexbuf} {t : Tok} {b' : Lexbuf},
    css_lex_string f q b = .ok (t, b') → t = .string := by
  intro f
  induction f with
  | zero => intro q b t b' h; exact absurd h (by simp [css_lex_string])
  | succ f ih =>
    intro q b t b' h
    rw [css_lex_string] at h
    repeat' (first | (split at h) | (simp only [] at h))
    all_goals first | exact ih h | simp_all

/-- `css_lex_color` only ever produces the color token. -/
theorem css_lex_color_kind {b : Lexbuf} {t : Tok} {b' : Lexbuf}
    (h : css_lex_color b = .ok (t, b')) : t = .color := by
  unfold css_lex_color at h
  repeat' split at h
  all_goals simp_all

/-- `css_lex_url` only ever produces the uri or keyword tokens. -/
theorem css_lex_url_kind {f : Nat} {b : Lexbuf} {t : Tok} {b' : Lexbuf}
    (h : css_lex_url f b = .ok (t, b')) : t = .uri ∨ t = .keyword := by
  unfold css_lex_url at h
  repeat' split at h
  all_goals first
    | (left; simp_all)
    | (right; exact css_lex_keyword_kind h)
    | simp_all

/-- `css_lex_minus` only ever produces number-ish, keyword or `-` tokens. -/
theorem css_lex_minus_kind {f : Nat} {b : Lexbuf} {t : Tok} {b' : Lexbuf}
    (h : css_lex_minus f b = .ok (t, b')) :
    t = .percent ∨ t = .length ∨ t = .number ∨ t = .keyword ∨ t = .chr 45 := by
  unfold css_lex_minus at h
  repeat' split at h
  all_goals first
    | (rcases css_lex_number_kind h with h1 | h1 | h1 <;> simp [h1])
    | (have h1 := css_lex_keyword_kind h; simp [h1])
    | simp_all

/-- the token-scanning loop never emits a `#` token: a `#` in the input is
always consumed by the color branch (which yields `CSS_COLOR` or fails). -/
theorem css_lex_loop_no_hash : ∀ {f : Nat} {b : Lexbuf} {t : Tok} {b' : Lexbuf},
    css_lex_loop f b = .ok (t, b') → t ≠ .chr 35 := by
  intro f
  induction f with
  | zero => intro b t b' h; exact Except.noConfusion h
  | succ f ih =>
    intro b t b' h
    rw [css_lex_loop] at h
    split at h
    · exact Except.noConfusion h
    rename_i b1 hw
    by_cases h0 : b1.c = 0
    · rw [if_pos h0] at h; simp at h; simp [← h.1]
    rw [if_neg h0] at h
    by_cases h47 : b1.c = 47
    · rw [if_pos h47] at h
      repeat' split at h
      all_goals first
        | exact ih h
        | exact Except.noConfusion h
        | (rcases h with ⟨h1, h2⟩; simp [← h1])
        | (simp at h; rcases h with ⟨h1, h2⟩; simp [← h1])
    rw [if_neg h47] at h
    by_cases h60 : b1.c = 60
    · rw [if_pos h60] at h
      repeat' split at h
      all_goals first
        | exact ih h
        | exact Except.noConfusion h
        | (rcases h with ⟨h1, h2⟩; simp [← h1])
        | (simp at h; rcases h with ⟨h1, h2⟩; simp [← h1])
    rw [if_neg h60] at h
    by_cases h45 : b1.c = 45
    · rw [if_pos h45] at h
      repeat' split at h
      all_goals first
        | exact ih h
        | exact Except.noConfusion h
        | (rcases h with ⟨h1, h2⟩; simp [← h1])
        | (simp at h; rcases h with ⟨h1, h2⟩; simp [← h1])
        | (rcases css_lex_minus_kind h with h1 | h1 | h1 | h1 | h1 <;> simp [h1])
    rw [if_neg h45] at h
    by_cases h43 : b1.c = 43
    · rw [if_pos h43] at h
      repeat' split at h
      all_goals first
        | exact Except.noConfusion h
        | (rcases h with ⟨h1, h2⟩; simp [← h1])
        | (simp at h; rcases h with ⟨h1, h2⟩; simp [← h1])
        | (rcases css_lex_number_kind h with h1 | h1 | h1 <;> simp [h1])
    rw [if_neg h43] at h
    by_cases h46 : b1.c = 46
    · rw [if_pos h46] at h
      repeat' split at h
      all_goals first
        | exact Except.noConfusion h
        | (rcases h with ⟨h1, h2⟩; simp [← h1])
        | (simp at h; rcases h with ⟨h1, h2⟩; simp [← h1])
        | (rcases css_lex_number_kind h with h1 | h1 | h1 <;> simp [h1])
    rw [if_neg h46] at h
    by_cases h35 : b1.c = 35
    · rw [if_pos h35] at h
      have h1 := css_lex_color_kind h; simp [h1]
    rw [if_neg h35] at h
    by_cases h34 : b1.c = 34
    · rw [if_pos h34] at h
      have h1 := css_lex_string_kind h; simp [h1]
    rw [if_neg h34] at h
    by_cases h39 : b1.c = 39
    · rw [if_pos h39] at h
      have h1 := css_lex_string_kind h; simp [h1]
    rw [if_neg h39] at h
    by_cases hdig : isdigit b1.c
    · rw [if_pos hdig] at h
      rcases css_lex_number_kind h with h1 | h1 | h1 <;> simp [h1]
    rw [if_neg hdig] at h
    by_cases h117 : b1.c = 117
    · rw [if_pos h117] at h
      rcases css_lex_url_kind h with h1 | h1 <;> simp [h1]
    rw [if_neg h117] at h
    by_cases hnm : isnmstart b1.c
    · rw [if_pos hnm] at h
      repeat' split at h
      all_goals first
        | exact Except.noConfusion h
        | (have h1 := css_lex_keyword_kind h; simp [h1])
    rw [if_neg hnm] at h
    simp at h
    simp [← h.1, h35]

/-- `css_lex` never emits a `#` token. -/
theorem css_lex_no_hash {f : Nat} {b : Lexbuf} {t : Tok} {b' : Lexbuf}
    (h : css_lex f b = .ok (t, b')) : t ≠ .chr 35 := by
  unfold css_lex at h
  exact css_lex_loop_no_hash h

/-! ## Claim theorems -/

/-- C1 (counterexample): the claim says `url(` followed by payload bytes and
`)` lexes to `CSS_URI` and that `p { background: url(foo.png) }` parses; in
the code `css_lex` requires `)` immediately after `url(`
(`css_lex_expect(buf, ')')`), so this input fails with "unexpected
character". -/
theorem c1_url_payload_cex :
    fz_parse_css 100 [] (bytes "p { background: url(foo.png) }") =
      .error "unexpected character" := rfl

/-- C1 (amended): after the lexer has consumed `url(`, it emits `CSS_URI`
exactly when the very next byte is `)`; any other byte makes it fail with
"unexpected character" (the payload is never skipped).  Consequently
`p { background: url() }` parses to a single declaration whose single value
has type `CSS_URI`. -/
theorem c1_url_amended :
    (∀ (f x : Nat) (rest : List Nat) (ln col sl : Nat) (str : List Nat), x = 41 →
      (css_lex (f+1) ⟨114 :: 108 :: 40 :: x :: rest, ln, 117, col, str, sl⟩).map Prod.fst =
        .ok .uri)
    ∧ (∀ (f x : Nat) (rest : List Nat) (ln col sl : Nat) (str : List Nat), x ≠ 41 →
      css_lex (f+1) ⟨114 :: 108 :: 40 :: x :: rest, ln, 117, col, str, sl⟩ =
        .error "unexpected character")
    ∧ (fz_parse_css 30 [] (bytes "p { background: url() }")).map
        (List.map fun r => r.declaration.map fun p => p.value.map Value.type) =
      .ok [[[.uri]]] := by
  refine ⟨?_, ?_, ?_⟩
  · intro f x rest ln col sl str hx
    subst hx
    simp +decide [css_lex, css_lex_loop, css_lex_url, skip_white, css_lex_next,
      css_lex_expect, iswhite, isdigit, isnmstart, ishex, Except.map]
  · intro f x rest ln col sl str hx
    simp +decide [css_lex, css_lex_loop, css_lex_url, skip_white, css_lex_next,
      css_lex_expect, iswhite, isdigit, isnmstart, ishex, hx]
  · simp +decide [fz_parse_css, next, css_lex, css_lex_loop, skip_white, skip_comment,
      skip_stars, css_lex_next, css_lex_init, css_lex_expect, css_push_char, css_lex_number,
      css_lex_keyword, css_lex_string, css_lex_color, css_lex_url, css_lex_minus,
      lexDigits, lexNmchars, ishex, hex6, hexDig, iswhite,
      isnmstart, isnmchar, isdigit, tokStr, bytes, parse_stylesheet, styLoop, parse_at_rule,
      atLoop, skipBlock, parse_rule, parse_selector_list, selLoop, parse_descendant_selector,
      parse_child_selector, parse_adjacent_selector, parse_simple_selector,
      parse_condition_list, condLoop, parse_condition, parse_attrib_value,
      parse_declaration_list, declLoop, parse_declaration, parse_value, parse_value_list,
      expect, accept, iscond, Value.type, Except.map]

/-- C1 (witness): the amended theorem applied at the concrete lexer state
for `url()` and for `url(x…`. -/
theorem c1_url_amended_witness :
    (css_lex 5 ⟨[114, 108, 40, 41, 32], 1, 117, 0, [], 0⟩).map Prod.fst = .ok .uri
    ∧ css_lex 5 ⟨[114, 108, 40, 120, 41], 1, 117, 0, [], 0⟩ =
        .error "unexpected character" :=
  ⟨c1_url_amended.1 4 41 [32] 1 0 0 [] rfl,
   c1_url_amended.2.1 4 120 [41] 1 0 0 [] (by decide)⟩

/-- C2 (counterexample): the claim says id selectors such as `#myid` parse
into a Condition with type `#`; in the code the lexer consumes `#` through
its color branch, so `#myid{}` fails with "invalid color" and no `#`
condition is ever built. -/
theorem c2_id_selector_cex :
    fz_parse_css 30 [] (bytes "#myid{}") = .error "invalid color" := rfl

/-- C2 (amended): `parse_condition`'s `#` branch (type `#`, key "id") is
unreachable: `css_lex` never returns a `#` token, because a `#` in the
input is always consumed by the color branch, which emits `CSS_COLOR` or
fails with "invalid color"; in particular `p#myid{}` fails with "invalid
color". -/
theorem c2_id_amended :
    (∀ (f : Nat) (b : Lexbuf) (t : Tok) (b' : Lexbuf),
      css_lex f b = .ok (t, b') → t ≠ .chr 35)
    ∧ fz_parse_css 30 [] (bytes "p#myid{}") = .error "invalid color" :=
  ⟨fun _ _ _ _ h => css_lex_no_hash h, rfl⟩

/-- C2 (witness): the amended theorem applied at a concrete lexer run. -/
theorem c2_id_amended_witness : Tok.keyword ≠ Tok.chr 35 :=
  c2_id_amended.1 5 (css_lex_init [97]) .keyword ⟨[], 1, 0, 0, [97, 0], 2⟩ rfl

/-- keyword lexing over `m+2` repeated `a` bytes: the scratch buffer
accumulates one byte per input byte plus the NUL terminator, so the token
succeeds exactly when `m+2` content bytes fit below the 1024-byte limit
with the terminator (`m+2 ≤ 1022`). -/
theorem lexNm_rep_ok : ∀ (n : Nat) {fuel ln col sl : Nat} {str : List Nat},
    n + 2 ≤ fuel → sl + (n+1) ≤ 1023 →
    lexNmchars fuel ⟨List.replicate n 97, ln, 97, col, str, sl⟩ =
      .ok ⟨[], ln, 0, col, str ++ List.replicate (n+1) 97, sl + (n+1)⟩ := by
  intro n
  induction n with
  | zero =>
    intro fuel ln col sl str hf hsl
    obtain ⟨f, rfl⟩ : ∃ f, fuel = f + 2 := ⟨fuel - 2, by omega⟩
    have h1 : ¬ (sl + 1 ≥ 1024) := by omega
    simp [lexNmchars, css_push_char, css_lex_next, h1, isnmchar]
  | succ n ih =>
    intro fuel ln col sl str hf hsl
    obtain ⟨f, rfl⟩ : ∃ f, fuel = f + 1 := ⟨fuel - 1, by omega⟩
    have h1 : ¬ (sl + 1 ≥ 1024) := by omega
    rw [List.replicate_succ]
    rw [lexNmchars]
    rw [if_pos (by decide : isnmchar 97 = true)]
    rw [show css_push_char ⟨97 :: List.replicate n 97, ln, 97, col, str, sl⟩ 97 =
        .ok ⟨97 :: List.replicate n 97, ln, 97, col, str ++ [97], sl + 1⟩ by
      simp [css_push_char, h1]]
    simp only [css_lex_next]
    norm_num
    rw [ih (by omega) (by omega)]
    simp [List.append_assoc, ← List.replicate_succ]
    omega

/-- keyword lexing over `n+1` repeated `a` bytes overflows the scratch
buffer (fails with "token too long") as soon as 1024 bytes would
accumulate. -/
theorem lexNm_rep_err : ∀ (n : Nat) {fuel ln col sl : Nat} {str : List Nat},
    n + 2 ≤ fuel → 1024 ≤ sl + (n+1) →
    lexNmchars fuel ⟨List.replicate n 97, ln, 97, col, str, sl⟩ =
      .error "token too long" := by
  intro n
  induction n with
  | zero =>
    intro fuel ln col sl str hf hsl
    obtain ⟨f, rfl⟩ : ∃ f, fuel = f + 2 := ⟨fuel - 2, by omega⟩
    have h1 : sl + 1 ≥ 1024 := by omega
    simp [lexNmchars, css_push_char, h1, isnmchar]
  | succ n ih =>
    intro fuel ln col sl str hf hsl
    obtain ⟨f, rfl⟩ : ∃ f, fuel = f + 1 := ⟨fuel - 1, by omega⟩
    by_cases h1 : sl + 1 ≥ 1024
    · simp [lexNmchars, css_push_char, h1, isnmchar, List.replicate_succ]
    · rw [List.replicate_succ]
      rw [lexNmchars]
      rw [if_pos (by decide : isnmchar 97 = true)]
      rw [show css_push_char ⟨97 :: List.replicate n 97, ln, 97, col, str, sl⟩ 97 =
          .ok ⟨97 :: List.replicate n 97, ln, 97, col, str ++ [97], sl + 1⟩ by
        simp [css_push_char, h1]]
      simp only [css_lex_next]
      norm_num
      exact ih (by omega) (by omega)

/-- lexing a keyword consisting of `m+2` letters `a`: accepted with the
full payload for `m+2 ≤ 1022`, "token too long" otherwise. -/
theorem css_lex_rep (m fuel : Nat) (hf : m + 4 ≤ fuel) :
    css_lex fuel (css_lex_init (List.replicate (m+2) 97)) =
      if m + 2 ≤ 1022 then
        .ok (.keyword, ⟨[], 1, 0, 0, List.replicate (m+2) 97 ++ [0], m+3⟩)
      else .error "token too long" := by
  obtain ⟨f, rfl⟩ : ∃ f, fuel = f + 1 := ⟨fuel - 1, by omega⟩
  have hinit : css_lex_init (List.replicate (m+2) 97) =
      ⟨List.replicate (m+1) 97, 1, 97, 0, [], 0⟩ := by
    rw [List.replicate_succ]; simp [css_lex_init, css_lex_next]
  rw [hinit, css_lex]
  rw [css_lex_loop]
  rw [show skip_white (f+1) ⟨List.replicate (m+1) 97, 1, 97, 0, [], 0⟩ =
      .ok ⟨List.replicate (m+1) 97, 1, 97, 0, [], 0⟩ by rw [skip_white]; norm_num [iswhite]]
  simp only []
  norm_num [isdigit, isnmstart, css_push_char]
  rw [List.replicate_succ]
  simp only [css_lex_next]
  norm_num
  rw [css_lex_keyword]
  by_cases hm : m + 2 ≤ 1022
  · rw [lexNm_rep_ok m (by omega) (by omega)]
    simp only [css_push_char]
    rw [if_neg (by omega), if_pos hm]
    have : (97 : Nat) :: 97 :: List.replicate m 97 = List.replicate (m+2) 97 := by
      rw [List.replicate_succ, List.replicate_succ]
    simp [← this]
    exact ⟨by rw [List.replicate_succ]; simp, by omega⟩
  · rw [if_neg hm]
    by_cases hm2 : m + 2 ≤ 1023
    · rw [lexNm_rep_ok m (by omega) (by omega)]
      simp only [css_push_char]
      rw [if_pos (by omega)]
    · rw [lexNm_rep_err m (by omega) (by omega)]

/-- C3 (counterexample): the claim says a 1023-byte keyword is accepted;
in the code the NUL terminator push overflows the 1024-byte scratch buffer
at 1023 content bytes, so lexing 1023 `a`s fails with "token too long". -/
theorem c3_token_len_cex :
    css_lex 2000 (css_lex_init (List.replicate 1023 97)) = .error "token too long" := by
  have h := css_lex_rep 1021 2000 (by norm_num)
  norm_num at h
  exact h

/-- C3 (amended): a keyword of exactly 1022 bytes is accepted and one of
1023 bytes fails with "token too long": `css_push_char` fails exactly when
1024 bytes (terminator included) would be accumulated, and the terminator
itself is pushed through it. -/
theorem c3_token_len_amended :
    (∀ (b : Lexbuf) (c : Nat),
      css_push_char b c = .error "token too long" ↔ 1024 ≤ b.string_len + 1)
    ∧ css_lex 2000 (css_lex_init (List.replicate 1022 97)) =
        .ok (.keyword, ⟨[], 1, 0, 0, List.replicate 1022 97 ++ [0], 1023⟩)
    ∧ css_lex 2000 (css_lex_init (List.replicate 1023 97)) = .error "token too long" := by
  refine ⟨fun b c => ?_, ?_, ?_⟩
  · unfold css_push_char
    split <;> simp_all
  · have h := css_lex_rep 1020 2000 (by norm_num)
    norm_num at h
    exact h
  · have h := css_lex_rep 1021 2000 (by norm_num)
    norm_num at h
    exact h

/-- C6: appending a second stylesheet to a previously parsed chain yields
the first chain's rules (same head) followed by the second's, in order. -/
theorem c6_chain_append (f1 f2 : Nat) (A B : List Nat) (rA rB : List Rule)
    (hA : fz_parse_css f1 [] A = .ok rA) (hB : fz_parse_css f2 [] B = .ok rB) :
    fz_parse_css f2 rA B = .ok (rA ++ rB) := by
  unfold fz_parse_css at hB ⊢
  cases hn : next f2 ⟨.eof, css_lex_init B⟩ with
  | error e => rw [hn] at hB; exact Except.noConfusion hB
  | ok st =>
    rw [hn] at hB
    simp only [] at hB ⊢
    unfold parse_stylesheet at hB ⊢
    cases hs : styLoop f2 st with
    | error e => rw [hs] at hB; exact Except.noConfusion hB
    | ok p =>
      obtain ⟨rs, st'⟩ := p
      rw [hs] at hB
      simp at hB ⊢
      rw [← hB]

/-- C6 (witness): concrete stylesheets `a{}` then `b{}`. -/
theorem c6_chain_append_witness :
    fz_parse_css 20 [⟨[.mk (some [97]) 0 [] none none], [], []⟩] (bytes "b{}") =
      .ok [⟨[.mk (some [97]) 0 [] none none], [], []⟩,
           ⟨[.mk (some [98]) 0 [] none none], [], []⟩] :=
  c6_chain_append 20 20 (bytes "a{}") (bytes "b{}")
    [⟨[.mk (some [97]) 0 [] none none], [], []⟩]
    [⟨[.mk (some [98]) 0 [] none none], [], []⟩] rfl rfl

/-- C7: `@`-rules are skipped: a block at-rule is consumed through its
matching `}` with brace nesting (`@media print { p { x: y } } q { z: w }`
leaves exactly the rule `q { z: w }`; nested braces as in
`@media{a{b:c}}p{}` are matched), a top-level `;` ends the at-rule
(`@x;p{}`), and EOF inside the block ends the skip silently (`@x{p{`
parses to an empty rule chain). -/
theorem c7_at_rule_skip :
    fz_parse_css 30 [] (bytes "@media print { p { x: y } } q { z: w }") =
      .ok [⟨[.mk (some (bytes "q")) 0 [] none none],
            [⟨bytes "z", [.mk .keyword (bytes "w") []], 0⟩], []⟩]
    ∧ fz_parse_css 30 [] (bytes "@x;p{}") =
      .ok [⟨[.mk (some (bytes "p")) 0 [] none none], [], []⟩]
    ∧ fz_parse_css 30 [] (bytes "@media{a{b:c}}p{}") =
      .ok [⟨[.mk (some (bytes "p")) 0 [] none none], [], []⟩]
    ∧ fz_parse_css 30 [] (bytes "@x\x7bp\x7b") = .ok [] := by
  refine ⟨?_, ?_, ?_, ?_⟩ <;>
  simp +decide [fz_parse_css, next, css_lex, css_lex_loop, skip_white, skip_comment,
    skip_stars, css_lex_next, css_lex_init, css_lex_expect, css_push_char, css_lex_number,
    css_lex_keyword, css_lex_string, css_lex_color, css_lex_url, css_lex_minus,
    lexDigits, lexNmchars, ishex, hex6, hexDig, iswhite,
    isnmstart, isnmchar, isdigit, tokStr, bytes, parse_stylesheet, styLoop, parse_at_rule,
    atLoop, skipBlock, parse_rule, parse_selector_list, selLoop, parse_descendant_selector,
    parse_child_selector, parse_adjacent_selector, parse_simple_selector,
    parse_condition_list, condLoop, parse_condition, parse_attrib_value,
    parse_declaration_list, declLoop, parse_declaration, parse_value, parse_value_list,
    expect, accept, iscond]

/-- C10: `fz_parse_css_properties` does not require the input to be fully
consumed: once a declaration has been parsed, if the lookahead is not `;`
the list ends there (no error for trailing content), and a leading `}`
lookahead ends the list immediately; concretely `color:red} x: ;` succeeds
with exactly the one declaration `color: red`. -/
theorem c10_trailing_ignored :
    (∀ (f : Nat) (st st' : PState) (p : Property), st.la ≠ .chr 125 → st.la ≠ .eof →
      parse_declaration (f+1) st = .ok (p, st') → st'.la ≠ .chr 59 →
      parse_declaration_list (f+1) st = .ok ([p], st'))
    ∧ fz_parse_css_properties 100 (bytes "color:red\x7d x: ;") =
        .ok [⟨bytes "color", [.mk .keyword (bytes "red") []], 0⟩] := by
  constructor
  · intro f st st' p h125 heof hd h59
    unfold parse_declaration_list
    rw [if_neg (by simp [h125, heof])]
    rw [hd]
    simp only []
    rw [declLoop]
    rw [if_neg h59]
  · simp +decide [fz_parse_css_properties, next, css_lex, css_lex_loop, skip_white,
      skip_comment, skip_stars, css_lex_next, css_lex_init, css_lex_expect, css_push_char,
      css_lex_number, css_lex_keyword, css_lex_string, css_lex_color, css_lex_url,
      css_lex_minus, lexDigits, lexNmchars, ishex, hex6, hexDig, iswhite,
      isnmstart, isnmchar, isdigit, tokStr, bytes,
      parse_declaration_list, declLoop, parse_declaration, parse_value, parse_value_list,
      expect, accept, iscond]

/-- C10 (witness): the general clause applied at the concrete state after
lexing `a` in `a:b)` — the declaration `a: b` is returned alone, the `)`
being ignored. -/
theorem c10_trailing_ignored_witness :
    parse_declaration_list 11 ⟨.keyword, ⟨[98, 41], 1, 58, 0, [97, 0], 2⟩⟩ =
      .ok ([⟨[97], [.mk .keyword [98] []], 0⟩], ⟨.chr 41, ⟨[], 1, 0, 0, [], 0⟩⟩) :=
  c10_trailing_ignored.1 10 ⟨.keyword, ⟨[98, 41], 1, 58, 0, [97, 0], 2⟩⟩
    ⟨.chr 41, ⟨[], 1, 0, 0, [], 0⟩⟩ ⟨[97], [.mk .keyword [98] []], 0⟩
    (by decide) (by decide) rfl (by decide)

/-- `ishex` rejects the NUL byte (used when a color runs into end of input). -/
theorem ishex_zero : ishex 0 = none := rfl

/-- C4: a lexically valid color lexes to `CSS_COLOR` whose scratch payload
is the six lowercase hex digits of `(a<<20)|(b<<16)|(c<<12)|(d<<8)|(e<<4)|f`
for `#rrggbb` and `(a<<20)|(b<<12)|(c<<4)` for `#rgb`; a non-hex byte among
the first three, or a non-hex fifth or sixth byte after four hex digits,
fails with "invalid color". -/
theorem c4_color_form :
    (∀ (f x1 x2 x3 x4 x5 x6 : Nat) (rest : List Nat) (ln col sl : Nat) (str : List Nat)
       (a b2 c3 d e f6 : Nat),
      ishex x1 = some a → ishex x2 = some b2 → ishex x3 = some c3 →
      ishex x4 = some d → ishex x5 = some e → ishex x6 = some f6 →
      (css_lex (f+1) ⟨x1 :: x2 :: x3 :: x4 :: x5 :: x6 :: rest, ln, 35, col, str, sl⟩).map
          (fun p => (p.1, p.2.string)) =
        .ok (.color, hex6 ((a <<< 20) ||| (b2 <<< 16) ||| (c3 <<< 12) |||
                           (d <<< 8) ||| (e <<< 4) ||| f6) ++ [0]))
    ∧ (∀ (f x1 x2 x3 : Nat) (rest : List Nat) (ln col sl : Nat) (str : List Nat)
         (a b2 c3 : Nat),
      ishex x1 = some a → ishex x2 = some b2 → ishex x3 = some c3 →
      ishex (rest.headD 0) = none →
      (css_lex (f+1) ⟨x1 :: x2 :: x3 :: rest, ln, 35, col, str, sl⟩).map
          (fun p => (p.1, p.2.string)) =
        .ok (.color, hex6 ((a <<< 20) ||| (b2 <<< 12) ||| (c3 <<< 4)) ++ [0]))
    ∧ (∀ (f x1 x2 x3 : Nat) (rest : List Nat) (ln col sl : Nat) (str : List Nat),
      (ishex x1 = none ∨ ishex x2 = none ∨ ishex x3 = none) →
      css_lex (f+1) ⟨x1 :: x2 :: x3 :: rest, ln, 35, col, str, sl⟩ =
        .error "invalid color")
    ∧ (∀ (f x1 x2 x3 x4 : Nat) (rest : List Nat) (ln col sl : Nat) (str : List Nat)
         (a b2 c3 d : Nat),
      ishex x1 = some a → ishex x2 = some b2 → ishex x3 = some c3 →
      ishex x4 = some d → ishex (rest.headD 0) = none →
      css_lex (f+1) ⟨x1 :: x2 :: x3 :: x4 :: rest, ln, 35, col, str, sl⟩ =
        .error "invalid color")
    ∧ (∀ (f x1 x2 x3 x4 x5 : Nat) (rest : List Nat) (ln col sl : Nat) (str : List Nat)
         (a b2 c3 d e : Nat),
      ishex x1 = some a → ishex x2 = some b2 → ishex x3 = some c3 →
      ishex x4 = some d → ishex x5 = some e → ishex (rest.headD 0) = none →
      css_lex (f+1) ⟨x1 :: x2 :: x3 :: x4 :: x5 :: rest, ln, 35, col, str, sl⟩ =
        .error "invalid color") := by
  refine ⟨?_, ?_, ?_, ?_, ?_⟩
  · intro f x1 x2 x3 x4 x5 x6 rest ln col sl str a b2 c3 d e f6 h1 h2 h3 h4 h5 h6
    simp +decide [css_lex, css_lex_loop, css_lex_color, skip_white, css_lex_next,
      iswhite, isdigit, isnmstart, h1, h2, h3, h4, h5, h6, Except.map]
  · intro f x1 x2 x3 rest ln col sl str a b2 c3 h1 h2 h3 h4
    cases rest with
    | nil =>
      simp +decide [css_lex, css_lex_loop, css_lex_color, skip_white, css_lex_next,
        iswhite, isdigit, isnmstart, h1, h2, h3, ishex_zero,
        Except.map]
    | cons x4 rest2 =>
      simp only [List.headD] at h4
      simp +decide [css_lex, css_lex_loop, css_lex_color, skip_white, css_lex_next,
        iswhite, isdigit, isnmstart, h1, h2, h3, h4, Except.map]
  · intro f x1 x2 x3 rest ln col sl str h
    rcases h with h1 | h1 | h1
    · simp +decide [css_lex, css_lex_loop, css_lex_color, skip_white, css_lex_next,
        iswhite, isdigit, isnmstart, h1]
    · cases hx1 : ishex x1 <;>
        simp +decide [css_lex, css_lex_loop, css_lex_color, skip_white, css_lex_next,
          iswhite, isdigit, isnmstart, hx1, h1]
    · cases hx1 : ishex x1 with
      | none =>
        simp +decide [css_lex, css_lex_loop, css_lex_color, skip_white, css_lex_next,
          iswhite, isdigit, isnmstart, hx1]
      | some a1 =>
        cases hx2 : ishex x2 <;>
          simp +decide [css_lex, css_lex_loop, css_lex_color, skip_white, css_lex_next,
            iswhite, isdigit, isnmstart, hx1, hx2, h1]
  · intro f x1 x2 x3 x4 rest ln col sl str a b2 c3 d h1 h2 h3 h4 h5
    cases rest with
    | nil =>
      simp +decide [css_lex, css_lex_loop, css_lex_color, skip_white, css_lex_next,
        iswhite, isdigit, isnmstart, h1, h2, h3, h4, ishex_zero]
    | cons x5 rest2 =>
      simp only [List.headD] at h5
      simp +decide [css_lex, css_lex_loop, css_lex_color, skip_white, css_lex_next,
        iswhite, isdigit, isnmstart, h1, h2, h3, h4, h5]
  · intro f x1 x2 x3 x4 x5 rest ln col sl str a b2 c3 d e h1 h2 h3 h4 h5 h6
    cases rest with
    | nil =>
      simp +decide [css_lex, css_lex_loop, css_lex_color, skip_white, css_lex_next,
        iswhite, isdigit, isnmstart, h1, h2, h3, h4, h5,
        ishex_zero]
    | cons x6 rest2 =>
      simp only [List.headD] at h6
      simp +decide [css_lex, css_lex_loop, css_lex_color, skip_white, css_lex_next,
        iswhite, isdigit, isnmstart, h1, h2, h3, h4, h5, h6]

/-- C4 (witness): the color theorem applied at `#1a2b3c` (six-digit form)
and at `#ggg` (invalid color). -/
theorem c4_color_form_witness :
    (css_lex 5 ⟨[49, 97, 50, 98, 51, 99], 1, 35, 0, [], 0⟩).map
        (fun p => (p.1, p.2.string)) =
      .ok (.color, [49, 97, 50, 98, 51, 99, 0])
    ∧ css_lex 5 ⟨[103, 103, 103], 1, 35, 0, [], 0⟩ = .error "invalid color" :=
  ⟨c4_color_form.1 4 49 97 50 98 51 99 [] 1 0 0 [] 1 10 2 11 3 12
     rfl rfl rfl rfl rfl rfl,
   c4_color_form.2.2.1 4 103 103 103 [] 1 0 0 [] (Or.inl rfl)⟩


/-- C9: the three combinator levels are right-associative: whenever three
operands are joined by the same combinator, the resulting tree is a
combinator node whose left child is the first operand and whose right
child is the combinator node joining the second and third. -/
theorem c9_right_assoc :
    (∀ (f : Nat) (s0 s1 s1' s2 s2' s3 : PState) (a b c : Selector),
      parse_simple_selector (f+3) s0 = .ok (a, s1) →
      s1.la = .chr 43 → next (f+3) s1 = .ok s1' →
      parse_simple_selector (f+2) s1' = .ok (b, s2) →
      s2.la = .chr 43 → next (f+2) s2 = .ok s2' →
      parse_simple_selector (f+1) s2' = .ok (c, s3) →
      s3.la ≠ .chr 43 →
      parse_adjacent_selector (f+3) s0 =
        .ok (.mk none 43 [] (some a) (some (.mk none 43 [] (some b) (some c))), s3))
    ∧ (∀ (f : Nat) (s0 s1 s1' s2 s2' s3 : PState) (a b c : Selector),
      parse_adjacent_selector (f+3) s0 = .ok (a, s1) →
      s1.la = .chr 62 → next (f+3) s1 = .ok s1' →
      parse_adjacent_selector (f+2) s1' = .ok (b, s2) →
      s2.la = .chr 62 → next (f+2) s2 = .ok s2' →
      parse_adjacent_selector (f+1) s2' = .ok (c, s3) →
      s3.la ≠ .chr 62 →
      parse_child_selector (f+3) s0 =
        .ok (.mk none 62 [] (some a) (some (.mk none 62 [] (some b) (some c))), s3))
    ∧ (∀ (f : Nat) (s0 s1 s2 s3 : PState) (a b c : Selector),
      parse_child_selector (f+3) s0 = .ok (a, s1) →
      (s1.la ≠ .chr 44 ∧ s1.la ≠ .chr 123 ∧ s1.la ≠ .eof) →
      parse_child_selector (f+2) s1 = .ok (b, s2) →
      (s2.la ≠ .chr 44 ∧ s2.la ≠ .chr 123 ∧ s2.la ≠ .eof) →
      parse_child_selector (f+1) s2 = .ok (c, s3) →
      ¬(s3.la ≠ .chr 44 ∧ s3.la ≠ .chr 123 ∧ s3.la ≠ .eof) →
      parse_descendant_selector (f+3) s0 =
        .ok (.mk none 32 [] (some a) (some (.mk none 32 [] (some b) (some c))), s3)) := by
  refine ⟨?_, ?_, ?_⟩
  · intro f s0 s1 s1' s2 s2' s3 a b c h1 hl1 hn1 h2 hl2 hn2 h3 hl3
    rw [parse_adjacent_selector, h1]
    simp only [accept, hl1, if_pos, hn1]
    rw [parse_adjacent_selector, h2]
    simp only [accept, hl2, if_pos, hn2]
    rw [parse_adjacent_selector, h3]
    simp only [accept]
    rw [if_neg hl3]
    simp
  · intro f s0 s1 s1' s2 s2' s3 a b c h1 hl1 hn1 h2 hl2 hn2 h3 hl3
    rw [parse_child_selector, h1]
    simp only [accept, hl1, if_pos, hn1]
    rw [parse_child_selector, h2]
    simp only [accept, hl2, if_pos, hn2]
    rw [parse_child_selector, h3]
    simp only [accept]
    rw [if_neg hl3]
    simp
  · intro f s0 s1 s2 s3 a b c h1 hl1 h2 hl2 h3 hl3
    rw [parse_descendant_selector, h1]
    simp only []
    rw [if_pos hl1]
    rw [parse_descendant_selector, h2]
    simp only []
    rw [if_pos hl2]
    rw [parse_descendant_selector, h3]
    simp only []
    rw [if_neg hl3]

/-- C9 (witness): the three conjuncts applied to `a+b+c{`, `a>b>c{` and
`a b c{`, each producing the right-associated tree. -/
theorem c9_right_assoc_witness :
    parse_adjacent_selector 20 ⟨.keyword, ⟨[98, 43, 99, 123], 1, 43, 0, [97, 0], 2⟩⟩ =
      .ok (.mk none 43 [] (some (.mk (some [97]) 0 [] none none))
            (some (.mk none 43 [] (some (.mk (some [98]) 0 [] none none))
              (some (.mk (some [99]) 0 [] none none)))),
          ⟨.chr 123, ⟨[], 1, 0, 0, [], 0⟩⟩)
    ∧ parse_child_selector 20 ⟨.keyword, ⟨[98, 62, 99, 123], 1, 62, 0, [97, 0], 2⟩⟩ =
      .ok (.mk none 62 [] (some (.mk (some [97]) 0 [] none none))
            (some (.mk none 62 [] (some (.mk (some [98]) 0 [] none none))
              (some (.mk (some [99]) 0 [] none none)))),
          ⟨.chr 123, ⟨[], 1, 0, 0, [], 0⟩⟩)
    ∧ parse_descendant_selector 20 ⟨.keyword, ⟨[98, 32, 99, 123], 1, 32, 0, [97, 0], 2⟩⟩ =
      .ok (.mk none 32 [] (some (.mk (some [97]) 0 [] none none))
            (some (.mk none 32 [] (some (.mk (some [98]) 0 [] none none))
              (some (.mk (some [99]) 0 [] none none)))),
          ⟨.chr 123, ⟨[], 1, 0, 0, [], 0⟩⟩) :=
  ⟨c9_right_assoc.1 17 _ _ _ _ _ _ _ _ _ rfl rfl rfl rfl rfl rfl rfl (by decide),
   c9_right_assoc.2.1 17 _ _ _ _ _ _ _ _ _ rfl rfl rfl rfl rfl rfl rfl (by decide),
   c9_right_assoc.2.2 17 _ _ _ _ _ _ _ rfl (by decide) rfl (by decide) rfl (by decide)⟩


/-- the string scanner's result token and payload do not depend on the
line counter or the color accumulator (they are passive bookkeeping). -/
theorem css_lex_string_line_irrel :
    ∀ (f q : Nat) (s : List Nat) (c : Nat) (str : List Nat) (sl l1 l2 col1 col2 : Nat),
    lexProj (css_lex_string f q ⟨s, l1, c, col1, str, sl⟩) =
      lexProj (css_lex_string f q ⟨s, l2, c, col2, str, sl⟩) := by
  intro f
  induction f with
  | zero => intro q s c str sl l1 l2 col1 col2; rfl
  | succ f ih =>
    intro q s c str sl l1 l2 col1 col2
    rw [css_lex_string, css_lex_string]
    by_cases hg : c ≠ 0 ∧ c ≠ q
    case neg =>
      rw [if_neg hg, if_neg hg]
      simp only [css_lex_expect]
      by_cases hq : c = q
      · rw [if_pos hq, if_pos hq]
        cases s <;>
          (simp only [css_lex_next, css_push_char]
           by_cases hp : sl + 1 ≥ 1024
           · simp only [if_pos hp]
           · simp only [if_neg hp]
             simp [lexProj, Except.map])
      · rw [if_neg hq, if_neg hq]
    case pos =>
      rw [if_pos hg, if_pos hg]
      by_cases h92 : c = 92
      case neg =>
        rw [if_neg h92, if_neg h92]
        simp only [css_push_char]
        by_cases hp : sl + 1 ≥ 1024
        · simp only [if_pos hp]
        · simp only [if_neg hp]
          cases s with
          | nil => exact ih q _ _ _ _ _ _ _ _
          | cons x r => exact ih q _ _ _ _ _ _ _ _
      case pos =>
        rw [if_pos h92, if_pos h92]
        cases s with
        | nil =>
          simp only [css_lex_next]
          norm_num
          simp only [css_push_char]
          by_cases hp : sl + 1 ≥ 1024
          · simp only [if_pos hp]
          · simp only [if_neg hp]
            exact ih q _ _ _ _ _ _ _ _
        | cons x r =>
          simp only [css_lex_next]
          rcases eq_or_ne x 110 with rfl | hx1
          · norm_num
            simp only [css_push_char]
            by_cases hp : sl + 1 ≥ 1024
            · cases r <;> (simp only [css_lex_next]; simp only [if_pos hp])
            · cases r <;>
                (simp only [css_lex_next]
                 simp only [if_neg hp]
                 exact ih q _ _ _ _ _ _ _ _)
          simp only [if_neg hx1]
          rcases eq_or_ne x 114 with rfl | hx2
          · norm_num
            simp only [css_push_char]
            by_cases hp : sl + 1 ≥ 1024
            · cases r <;> (simp only [css_lex_next]; simp only [if_pos hp])
            · cases r <;>
                (simp only [css_lex_next]
                 simp only [if_neg hp]
                 exact ih q _ _ _ _ _ _ _ _)
          simp only [if_neg hx2]
          rcases eq_or_ne x 102 with rfl | hx3
          · norm_num
            simp only [css_push_char]
            by_cases hp : sl + 1 ≥ 1024
            · cases r <;> (simp only [css_lex_next]; simp only [if_pos hp])
            · cases r <;>
                (simp only [css_lex_next]
                 simp only [if_neg hp]
                 exact ih q _ _ _ _ _ _ _ _)
          simp only [if_neg hx3]
          rcases eq_or_ne x 12 with rfl | hx4
          · norm_num
            cases r <;> (simp only [css_lex_next]; exact ih q _ _ _ _ _ _ _ _)
          simp only [if_neg hx4]
          rcases eq_or_ne x 10 with rfl | hx5
          · norm_num
            cases r <;> (simp only [css_lex_next]; exact ih q _ _ _ _ _ _ _ _)
          simp only [if_neg hx5]
          rcases eq_or_ne x 13 with rfl | hx6
          · norm_num
            cases r with
            | nil =>
              simp only [css_lex_next]
              norm_num
              exact ih q _ _ _ _ _ _ _ _
            | cons y r2 =>
              simp only [css_lex_next]
              rcases eq_or_ne y 10 with rfl | hy
              · norm_num
                cases r2 <;> (simp only [css_lex_next]; exact ih q _ _ _ _ _ _ _ _)
              · simp only [if_neg hy]
                exact ih q _ _ _ _ _ _ _ _
          simp only [if_neg hx6]
          simp only [css_lex_next, css_push_char]
          by_cases hp : sl + 1 ≥ 1024
          · simp only [if_pos hp]
          · simp only [if_neg hp]
            cases r <;> (simp only [css_lex_next]; exact ih q _ _ _ _ _ _ _ _)

/-- the byte under the cursor after one advance. -/
theorem css_lex_next_c (b : Lexbuf) : (css_lex_next b).c = b.s.headD 0 := by
  cases h : b.s <;> simp [css_lex_next, h]

/-- C8: inside a string literal, `\n`, `\r`, `\f` push the bytes 0x0A,
0x0D, 0x0C; a backslash before FF, LF, CR or CR LF is a line continuation
producing no bytes; a backslash before any other byte pushes that byte
literally; end of input before the closing quote fails with "unexpected
character"; and removing a `\<LF>` line continuation does not change the
resulting token or payload (only the line counter). -/
theorem c8_string_escapes :
    (∀ (f q : Nat) (b : Lexbuf) (r : List Nat), b.c = 92 → b.s = 110 :: r → q ≠ 92 →
      css_lex_string (f+1) q b =
        match css_push_char (css_lex_next (css_lex_next b)) 10 with
        | .error e => .error e
        | .ok b' => css_lex_string f q b')
    ∧ (∀ (f q : Nat) (b : Lexbuf) (r : List Nat), b.c = 92 → b.s = 114 :: r → q ≠ 92 →
      css_lex_string (f+1) q b =
        match css_push_char (css_lex_next (css_lex_next b)) 13 with
        | .error e => .error e
        | .ok b' => css_lex_string f q b')
    ∧ (∀ (f q : Nat) (b : Lexbuf) (r : List Nat), b.c = 92 → b.s = 102 :: r → q ≠ 92 →
      css_lex_string (f+1) q b =
        match css_push_char (css_lex_next (css_lex_next b)) 12 with
        | .error e => .error e
        | .ok b' => css_lex_string f q b')
    ∧ (∀ (f q : Nat) (b : Lexbuf) (r : List Nat), b.c = 92 → b.s = 12 :: r → q ≠ 92 →
      css_lex_string (f+1) q b = css_lex_string f q (css_lex_next (css_lex_next b)))
    ∧ (∀ (f q : Nat) (b : Lexbuf) (r : List Nat), b.c = 92 → b.s = 10 :: r → q ≠ 92 →
      css_lex_string (f+1) q b = css_lex_string f q (css_lex_next (css_lex_next b)))
    ∧ (∀ (f q : Nat) (b : Lexbuf) (r : List Nat), b.c = 92 → b.s = 13 :: r → q ≠ 92 →
      css_lex_string (f+1) q b =
        css_lex_string f q
          (if (css_lex_next (css_lex_next b)).c = 10 then
            css_lex_next (css_lex_next (css_lex_next b))
           else css_lex_next (css_lex_next b)))
    ∧ (∀ (f q : Nat) (b : Lexbuf) (x : Nat) (r : List Nat), b.c = 92 → b.s = x :: r →
        q ≠ 92 → x ≠ 110 → x ≠ 114 → x ≠ 102 → x ≠ 12 → x ≠ 10 → x ≠ 13 →
      css_lex_string (f+1) q b =
        match css_push_char (css_lex_next b) x with
        | .error e => .error e
        | .ok b' => css_lex_string f q (css_lex_next b'))
    ∧ (∀ (f q : Nat) (b : Lexbuf), b.c = 0 → q ≠ 0 →
      css_lex_string (f+1) q b = .error "unexpected character")
    ∧ (∀ (f q : Nat) (b : Lexbuf), q ≠ 92 →
      lexProj (css_lex_string (f+1) q
          ⟨10 :: b.c :: b.s, b.line, 92, b.color, b.string, b.string_len⟩) =
        lexProj (css_lex_string f q b)) := by
  refine ⟨?_, ?_, ?_, ?_, ?_, ?_, ?_, ?_, ?_⟩
  · intro f q b r hc hs hq
    rw [css_lex_string, if_pos ⟨by simp [hc], by simp [hc]; exact Ne.symm hq⟩, if_pos hc]
    have h1 : (css_lex_next b).c = 110 := by rw [css_lex_next_c, hs]; rfl
    rw [if_pos h1]
  · intro f q b r hc hs hq
    rw [css_lex_string, if_pos ⟨by simp [hc], by simp [hc]; exact Ne.symm hq⟩, if_pos hc]
    have h1 : (css_lex_next b).c = 114 := by rw [css_lex_next_c, hs]; rfl
    rw [if_neg (by rw [h1]; norm_num), if_pos h1]
  · intro f q b r hc hs hq
    rw [css_lex_string, if_pos ⟨by simp [hc], by simp [hc]; exact Ne.symm hq⟩, if_pos hc]
    have h1 : (css_lex_next b).c = 102 := by rw [css_lex_next_c, hs]; rfl
    rw [if_neg (by rw [h1]; norm_num), if_neg (by rw [h1]; norm_num), if_pos h1]
  · intro f q b r hc hs hq
    rw [css_lex_string, if_pos ⟨by simp [hc], by simp [hc]; exact Ne.symm hq⟩, if_pos hc]
    have h1 : (css_lex_next b).c = 12 := by rw [css_lex_next_c, hs]; rfl
    rw [if_neg (by rw [h1]; norm_num), if_neg (by rw [h1]; norm_num),
        if_neg (by rw [h1]; norm_num), if_pos h1]
  · intro f q b r hc hs hq
    rw [css_lex_string, if_pos ⟨by simp [hc], by simp [hc]; exact Ne.symm hq⟩, if_pos hc]
    have h1 : (css_lex_next b).c = 10 := by rw [css_lex_next_c, hs]; rfl
    rw [if_neg (by rw [h1]; norm_num), if_neg (by rw [h1]; norm_num),
        if_neg (by rw [h1]; norm_num), if_neg (by rw [h1]; norm_num), if_pos h1]
  · intro f q b r hc hs hq
    rw [css_lex_string, if_pos ⟨by simp [hc], by simp [hc]; exact Ne.symm hq⟩, if_pos hc]
    have h1 : (css_lex_next b).c = 13 := by rw [css_lex_next_c, hs]; rfl
    rw [if_neg (by rw [h1]; norm_num), if_neg (by rw [h1]; norm_num),
        if_neg (by rw [h1]; norm_num), if_neg (by rw [h1]; norm_num),
        if_neg (by rw [h1]; norm_num), if_pos h1]
  · intro f q b x r hc hs hq hx1 hx2 hx3 hx4 hx5 hx6
    rw [css_lex_string, if_pos ⟨by simp [hc], by simp [hc]; exact Ne.symm hq⟩, if_pos hc]
    have h1 : (css_lex_next b).c = x := by rw [css_lex_next_c, hs]; rfl
    rw [if_neg (by rw [h1]; exact hx1), if_neg (by rw [h1]; exact hx2),
        if_neg (by rw [h1]; exact hx3), if_neg (by rw [h1]; exact hx4),
        if_neg (by rw [h1]; exact hx5), if_neg (by rw [h1]; exact hx6), h1]
  · intro f q b hc hq
    rw [css_lex_string, if_neg (by simp [hc]), css_lex_expect, if_neg (by simp [hc]; exact Ne.symm hq)]
  · intro f q b hq
    rw [css_lex_string]
    rw [if_pos ⟨by simp, fun h => hq (by simpa using h.symm)⟩]
    rw [if_pos (show (92 : Nat) = 92 from rfl)]
    have h1 : (css_lex_next ⟨10 :: b.c :: b.s, b.line, 92, b.color, b.string, b.string_len⟩).c = 10 := by
      rw [css_lex_next_c]; rfl
    rw [if_neg (by rw [h1]; norm_num), if_neg (by rw [h1]; norm_num),
        if_neg (by rw [h1]; norm_num), if_neg (by rw [h1]; norm_num), if_pos h1]
    have h2 : css_lex_next (css_lex_next
        ⟨10 :: b.c :: b.s, b.line, 92, b.color, b.string, b.string_len⟩) =
        ⟨b.s, if b.c = 10 then b.line + 1 + 1 else b.line + 1, b.c, b.color, b.string,
         b.string_len⟩ := by
      simp [css_lex_next]
    rw [h2]
    have h3 := css_lex_string_line_irrel f q b.s b.c b.string b.string_len
      (if b.c = 10 then b.line + 1 + 1 else b.line + 1) b.line b.color b.color
    exact h3

/-- C8 (witness): the escape equation, the EOF failure and the
continuation-removal payload equation at concrete states. -/
theorem c8_string_escapes_witness :
    (css_lex_string 6 34 ⟨[110, 98, 34], 1, 92, 0, [97], 1⟩ =
      match css_push_char (css_lex_next (css_lex_next ⟨[110, 98, 34], 1, 92, 0, [97], 1⟩)) 10 with
      | .error e => .error e
      | .ok b' => css_lex_string 5 34 b')
    ∧ css_lex_string 6 34 ⟨[], 1, 0, 0, [], 0⟩ = .error "unexpected character"
    ∧ lexProj (css_lex_string 6 34 ⟨[10, 98, 34], 1, 92, 0, [97], 1⟩) =
        lexProj (css_lex_string 5 34 ⟨[34], 1, 98, 0, [97], 1⟩) :=
  ⟨c8_string_escapes.1 5 34 ⟨[110, 98, 34], 1, 92, 0, [97], 1⟩ [98, 34] rfl rfl (by decide),
   c8_string_escapes.2.2.2.2.2.2.2.1 5 34 ⟨[], 1, 0, 0, [], 0⟩ rfl (by decide),
   c8_string_escapes.2.2.2.2.2.2.2.2 5 34 ⟨[34], 1, 98, 0, [97], 1⟩ (by decide)⟩

/-! ## The inline-properties simulation (C5) -/

theorem extb_c (b : Lexbuf) : (extb b).c = if b.c = 0 then 125 else b.c := by
  unfold extb; split <;> simp

theorem extb_string (b : Lexbuf) : (extb b).string = b.string := by
  unfold extb; split <;> simp

theorem extb_string_len (b : Lexbuf) : (extb b).string_len = b.string_len := by
  unfold extb; split <;> simp

theorem wfb_next {b : Lexbuf} (h : wfb b) : wfb (css_lex_next b) := by
  obtain ⟨h1, h2⟩ := h
  unfold css_lex_next
  cases hs : b.s with
  | nil => exact ⟨by simp, fun _ => rfl⟩
  | cons x r =>
    rw [hs] at h1
    exact ⟨fun hm => h1 (List.mem_cons_of_mem _ hm),
           fun hx => absurd (hx ▸ List.mem_cons_self _ _) h1⟩

theorem ext_next {b : Lexbuf} (h : wfb b) (hc : b.c ≠ 0) :
    css_lex_next (extb b) = extb (css_lex_next b) := by
  obtain ⟨h1, h2⟩ := h
  unfold extb
  rw [if_neg hc]
  cases hs : b.s with
  | nil =>
    simp [css_lex_next, hs]
  | cons x r =>
    have hx : x ≠ 0 := fun h0 => h1 (hs ▸ h0 ▸ List.mem_cons_self _ _)
    simp [css_lex_next, hs, hx]

theorem ext_push (b : Lexbuf) (x : Nat) :
    css_push_char (extb b) x = Except.map extb (css_push_char b x) := by
  unfold css_push_char
  rw [extb_string_len]
  split
  · rfl
  · unfold extb
    by_cases h0 : b.c = 0 <;> simp [h0, Except.map]

theorem wfb_push {b b' : Lexbuf} {x : Nat} (h : wfb b)
    (hp : css_push_char b x = .ok b') : wfb b' := by
  unfold css_push_char at hp
  split at hp
  · exact Except.noConfusion hp
  · injection hp with h'
    rw [← h']
    exact ⟨h.1, h.2⟩

theorem ext_expect {b b' : Lexbuf} {t : Nat} (hw : wfb b) (ht0 : t ≠ 0) (ht125 : t ≠ 125)
    (h : css_lex_expect b t = .ok b') :
    css_lex_expect (extb b) t = .ok (extb b') ∧ wfb b' := by
  unfold css_lex_expect at h ⊢
  split at h
  case isFalse => exact Except.noConfusion h
  case isTrue hc =>
    injection h with h'
    subst h'
    have hc0 : b.c ≠ 0 := fun h0 => ht0 (by rw [← hc, h0])
    rw [extb_c, if_neg hc0, if_pos hc, ext_next hw hc0]
    exact ⟨rfl, wfb_next hw⟩

theorem ext_skip_white : ∀ {f : Nat} {b b' : Lexbuf}, wfb b → skip_white f b = .ok b' →
    skip_white f (extb b) = .ok (extb b') ∧ wfb b' := by
  intro f
  induction f with
  | zero => intro b b' hw h; exact Except.noConfusion h
  | succ f ih =>
    intro b b' hw h
    rw [skip_white] at h ⊢
    by_cases h0 : b.c = 0
    · rw [if_neg (by simp [h0, iswhite]) ] at h
      rw [extb_c, if_pos h0, if_neg (by decide)]
      injection h with h'
      subst h'
      exact ⟨rfl, hw⟩
    · rw [extb_c, if_neg h0]
      by_cases hwht : iswhite b.c
      · rw [if_pos hwht] at h
        rw [if_pos hwht, ext_next hw h0]
        exact ih (wfb_next hw) h
      · rw [if_neg hwht] at h
        rw [if_neg hwht]
        injection h with h'
        subst h'
        exact ⟨rfl, hw⟩

theorem ext_skip_stars : ∀ {f : Nat} {b b' : Lexbuf}, wfb b → skip_stars f b = .ok b' →
    skip_stars f (extb b) = .ok (extb b') ∧ wfb b' := by
  intro f
  induction f with
  | zero => intro b b' hw h; exact Except.noConfusion h
  | succ f ih =>
    intro b b' hw h
    rw [skip_stars] at h ⊢
    by_cases h42 : b.c = 42
    · have h0 : b.c ≠ 0 := by rw [h42]; decide
      rw [if_pos h42] at h
      rw [extb_c, if_neg h0, if_pos h42, ext_next hw h0]
      exact ih (wfb_next hw) h
    · rw [if_neg h42] at h
      injection h with h'
      subst h'
      by_cases h0 : b.c = 0
      · rw [extb_c, if_pos h0, if_neg (by decide)]
        exact ⟨rfl, hw⟩
      · rw [extb_c, if_neg h0, if_neg h42]
        exact ⟨rfl, hw⟩

theorem ext_lexDigits : ∀ {f : Nat} {b b' : Lexbuf}, wfb b → lexDigits f b = .ok b' →
    lexDigits f (extb b) = .ok (extb b') ∧ wfb b' := by
  intro f
  induction f with
  | zero => intro b b' hw h; exact Except.noConfusion h
  | succ f ih =>
    intro b b' hw h
    rw [lexDigits] at h ⊢
    by_cases hd : isdigit b.c
    · have h0 : b.c ≠ 0 := by
        intro h0; rw [h0] at hd; exact absurd hd (by decide)
      have hce : (extb b).c = b.c := by rw [extb_c, if_neg h0]
      rw [if_pos hd] at h
      rw [hce, if_pos hd, ext_push]
      cases hp : css_push_char b b.c with
      | error e => rw [hp] at h; exact Except.noConfusion h
      | ok b1 =>
        rw [hp] at h
        simp only [Except.map]
        have hb1 : b1.c = b.c ∧ b1.s = b.s := by
          unfold css_push_char at hp
          split at hp
          · exact Except.noConfusion hp
          · injection hp with h'; rw [← h']; exact ⟨rfl, rfl⟩
        have hw1 : wfb b1 := by
          unfold wfb; rw [hb1.1, hb1.2]; exact hw
        have hc1 : b1.c ≠ 0 := by rw [hb1.1]; exact h0
        rw [ext_next hw1 hc1]
        exact ih (wfb_next hw1) h
    · rw [if_neg hd] at h
      injection h with h'
      subst h'
      by_cases h0 : b.c = 0
      · rw [extb_c, if_pos h0, if_neg (by decide)]
        exact ⟨rfl, hw⟩
      · rw [extb_c, if_neg h0, if_neg hd]
        exact ⟨rfl, hw⟩

theorem push_parts {b b' : Lexbuf} {x : Nat} (hp : css_push_char b x = .ok b') :
    b'.c = b.c ∧ b'.s = b.s ∧ b'.string = b.string ++ [x] ∧
      b'.string_len = b.string_len + 1 := by
  unfold css_push_char at hp
  split at hp
  · exact Except.noConfusion hp
  · injection hp with h'
    rw [← h']
    exact ⟨rfl, rfl, rfl, rfl⟩

theorem extb_c_eq {b : Lexbuf} {k : Nat} (hk0 : k ≠ 0) (hk125 : k ≠ 125) :
    ((extb b).c = k) = (b.c = k) := by
  rw [extb_c]
  by_cases h0 : b.c = 0
  · rw [if_pos h0, h0, eq_iff_iff]
    constructor
    · intro h; exact absurd h.symm hk125
    · intro h; exact absurd h.symm hk0
  · rw [if_neg h0]

theorem extb_isdigit (b : Lexbuf) : isdigit (extb b).c = isdigit b.c := by
  rw [extb_c]; by_cases h0 : b.c = 0 <;> simp [h0] <;> decide

theorem extb_isnmchar (b : Lexbuf) : isnmchar (extb b).c = isnmchar b.c := by
  rw [extb_c]; by_cases h0 : b.c = 0 <;> simp [h0] <;> decide

theorem extb_isnmstart (b : Lexbuf) : isnmstart (extb b).c = isnmstart b.c := by
  rw [extb_c]; by_cases h0 : b.c = 0 <;> simp [h0] <;> decide

theorem extb_ishex (b : Lexbuf) : ishex (extb b).c = ishex b.c := by
  rw [extb_c]; by_cases h0 : b.c = 0 <;> simp [h0] <;> decide

theorem ext_lexNmchars : ∀ {f : Nat} {b b' : Lexbuf}, wfb b → lexNmchars f b = .ok b' →
    lexNmchars f (extb b) = .ok (extb b') ∧ wfb b' := by
  intro f
  induction f with
  | zero => intro b b' hw h; exact Except.noConfusion h
  | succ f ih =>
    intro b b' hw h
    rw [lexNmchars] at h ⊢
    by_cases hd : isnmchar b.c
    · have h0 : b.c ≠ 0 := by
        intro h0; rw [h0] at hd; exact absurd hd (by decide)
      have hce : (extb b).c = b.c := by rw [extb_c, if_neg h0]
      rw [if_pos hd] at h
      rw [hce, if_pos hd, ext_push]
      cases hp : css_push_char b b.c with
      | error e => rw [hp] at h; exact Except.noConfusion h
      | ok b1 =>
        rw [hp] at h
        simp only [Except.map]
        simp only [] at h ⊢
        obtain ⟨hc1, hs1, _, _⟩ := push_parts hp
        have hw1 : wfb b1 := by unfold wfb; rw [hc1, hs1]; exact hw
        rw [ext_next hw1 (hc1 ▸ h0)]
        exact ih (wfb_next hw1) h
    · rw [if_neg hd] at h
      injection h with h'
      subst h'
      rw [extb_isnmchar, if_neg hd]
      exact ⟨rfl, hw⟩

theorem skip_comment_ne {f : Nat} {b r : Lexbuf} (h0 : b.c = 0) :
    skip_comment f b ≠ .ok r := by
  cases f with
  | zero => exact fun h => Except.noConfusion h
  | succ f =>
    rw [skip_comment, if_pos h0]
    exact fun h => Except.noConfusion h

theorem ext_skip_comment : ∀ {f : Nat} {b b' : Lexbuf}, wfb b → skip_comment f b = .ok b' →
    skip_comment f (extb b) = .ok (extb b') ∧ wfb b' := by
  intro f
  induction f with
  | zero => intro b b' hw h; exact Except.noConfusion h
  | succ f ih =>
    intro b b' hw h
    rw [skip_comment] at h ⊢
    by_cases h0 : b.c = 0
    · rw [if_pos h0] at h; exact Except.noConfusion h
    rw [if_neg h0] at h
    rw [extb_c, if_neg h0, if_neg h0]
    by_cases h42 : b.c = 42
    · rw [if_pos h42] at h
      rw [if_pos h42, ext_next hw h0]
      cases hs : skip_stars (f+1) (css_lex_next b) with
      | error e => rw [hs] at h; exact Except.noConfusion h
      | ok b1 =>
        rw [hs] at h
        obtain ⟨hs', hw1⟩ := ext_skip_stars (wfb_next hw) hs
        rw [hs']
        simp only [] at h ⊢
        by_cases h47 : b1.c = 47
        · have h01 : b1.c ≠ 0 := by rw [h47]; decide
          rw [if_pos h47] at h
          rw [extb_c, if_neg h01, if_pos h47, ext_next hw1 h01]
          injection h with h'
          subst h'
          exact ⟨rfl, wfb_next hw1⟩
        · rw [if_neg h47] at h
          by_cases h01 : b1.c = 0
          · have : (css_lex_next b1).c = 0 := by
              rw [css_lex_next_c, hw1.2 h01]; rfl
            exact absurd h (skip_comment_ne this)
          · rw [extb_c, if_neg h01, if_neg h47, ext_next hw1 h01]
            exact ih (wfb_next hw1) h
    · rw [if_neg h42] at h
      rw [if_neg h42, ext_next hw h0]
      exact ih (wfb_next hw) h

theorem ext_num_tail {fuel : Nat} {b : Lexbuf} {t : Tok} {b' : Lexbuf} (hw : wfb b)
    (h : numTail fuel b = .ok (t, b')) :
    numTail fuel (extb b) = .ok (t, extb b') ∧ wfb b' := by
  unfold numTail at h ⊢
  by_cases h37 : b.c = 37
  · have h0 : b.c ≠ 0 := by rw [h37]; decide
    have hce : (extb b).c = b.c := by rw [extb_c, if_neg h0]
    rw [if_pos h37] at h
    rw [hce, if_pos h37, ext_next hw h0, ext_push]
    cases hp : css_push_char (css_lex_next b) 37 with
    | error e => rw [hp] at h; exact Except.noConfusion h
    | ok b1 =>
      rw [hp] at h
      simp only [Except.map]
      simp only [] at h ⊢
      have hw1 : wfb b1 := wfb_push (wfb_next hw) hp
      rw [ext_push]
      cases hp2 : css_push_char b1 0 with
      | error e => rw [hp2] at h; exact Except.noConfusion h
      | ok b2 =>
        rw [hp2] at h
        simp only [Except.map]
        injection h with h'
        injection h' with h1 h2
        subst h1; subst h2
        exact ⟨rfl, wfb_push hw1 hp2⟩
  · rw [if_neg h37] at h
    by_cases hnm : isnmstart b.c
    · have h0 : b.c ≠ 0 := by
        intro h0; rw [h0] at hnm; exact absurd hnm (by decide)
      have hce : (extb b).c = b.c := by rw [extb_c, if_neg h0]
      rw [if_pos hnm] at h
      rw [hce, if_neg h37, if_pos hnm, ext_push]
      cases hp : css_push_char b b.c with
      | error e => rw [hp] at h; exact Except.noConfusion h
      | ok b1 =>
        rw [hp] at h
        simp only [Except.map]
        simp only [] at h ⊢
        obtain ⟨hc1, hs1, _, _⟩ := push_parts hp
        have hw1 : wfb b1 := by unfold wfb; rw [hc1, hs1]; exact hw
        rw [ext_next hw1 (hc1 ▸ h0)]
        cases hn : lexNmchars fuel (css_lex_next b1) with
        | error e => rw [hn] at h; exact Except.noConfusion h
        | ok b2 =>
          rw [hn] at h
          obtain ⟨hn', hw2⟩ := ext_lexNmchars (wfb_next hw1) hn
          rw [hn']
          simp only [] at h ⊢
          rw [ext_push]
          cases hp2 : css_push_char b2 0 with
          | error e => rw [hp2] at h; exact Except.noConfusion h
          | ok b3 =>
            rw [hp2] at h
            simp only [Except.map]
            injection h with h'
            injection h' with h1 h2
            subst h1; subst h2
            exact ⟨rfl, wfb_push hw2 hp2⟩
    · rw [if_neg hnm] at h
      cases hp : css_push_char b 0 with
      | error e => rw [hp] at h; exact Except.noConfusion h
      | ok b1 =>
        rw [hp] at h
        injection h with h'
        injection h' with h1 h2
        subst h1; subst h2
        by_cases h0 : b.c = 0
        · rw [extb_c, if_pos h0]
          rw [if_neg (by decide : ¬ (125 : Nat) = 37)]
          rw [if_neg (by decide : ¬ isnmstart 125 = true)]
          rw [ext_push, hp]
          simp only [Except.map]
          exact ⟨trivial, wfb_push hw hp⟩
        · rw [extb_c, if_neg h0, if_neg h37, if_neg hnm]
          rw [ext_push, hp]
          simp only [Except.map]
          exact ⟨trivial, wfb_push hw hp⟩

theorem ext_css_lex_number {fuel : Nat} {b : Lexbuf} {t : Tok} {b' : Lexbuf} (hw : wfb b)
    (h : css_lex_number fuel b = .ok (t, b')) :
    css_lex_number fuel (extb b) = .ok (t, extb b') ∧ wfb b' := by
  unfold css_lex_number at h ⊢
  cases hd : lexDigits fuel b with
  | error e => rw [hd] at h; exact Except.noConfusion h
  | ok b1 =>
    rw [hd] at h
    obtain ⟨hd', hw1⟩ := ext_lexDigits hw hd
    rw [hd']
    simp only [] at h ⊢
    by_cases h46 : b1.c = 46
    · have h0 : b1.c ≠ 0 := by rw [h46]; decide
      have hce : (extb b1).c = b1.c := by rw [extb_c, if_neg h0]
      rw [if_pos h46] at h
      rw [hce, if_pos h46, ext_next hw1 h0, ext_push]
      cases hp : css_push_char (css_lex_next b1) 46 with
      | error e =>
        rw [hp] at h
        exact Except.noConfusion h
      | ok b2 =>
        rw [hp] at h
        simp only [Except.map]
        simp only [] at h ⊢
        have hw2 : wfb b2 := wfb_push (wfb_next hw1) hp
        cases hd2 : lexDigits fuel b2 with
        | error e =>
          rw [hd2] at h
          simp only [] at h
          exact Except.noConfusion h
        | ok b3 =>
          rw [hd2] at h
          obtain ⟨hd2', hw3⟩ := ext_lexDigits hw2 hd2
          rw [hd2']
          simp only [] at h ⊢
          exact ext_num_tail hw3 h
    · rw [if_neg h46] at h
      by_cases h0 : b1.c = 0
      · rw [extb_c, if_pos h0, if_neg (by decide : ¬ (125 : Nat) = 46)]
        exact ext_num_tail hw1 h
      · rw [extb_c, if_neg h0, if_neg h46]
        exact ext_num_tail hw1 h

theorem extb_c_pos {b : Lexbuf} {k : Nat} (hk0 : k ≠ 0) (h : b.c = k) :
    (extb b).c = k := by
  rw [extb_c, if_neg (by rw [h]; exact hk0), h]

theorem extb_c_ne {b : Lexbuf} {k : Nat} (hk125 : k ≠ 125) (h : b.c ≠ k) :
    (extb b).c ≠ k := by
  rw [extb_c]
  by_cases h0 : b.c = 0
  · rw [if_pos h0]; exact fun he => hk125 he.symm
  · rw [if_neg h0]; exact h

theorem ext_css_lex_keyword {fuel : Nat} {b : Lexbuf} {t : Tok} {b' : Lexbuf} (hw : wfb b)
    (h : css_lex_keyword fuel b = .ok (t, b')) :
    css_lex_keyword fuel (extb b) = .ok (t, extb b') ∧ wfb b' := by
  unfold css_lex_keyword at h ⊢
  cases hn : lexNmchars fuel b with
  | error e => rw [hn] at h; exact Except.noConfusion h
  | ok b1 =>
    rw [hn] at h
    obtain ⟨hn', hw1⟩ := ext_lexNmchars hw hn
    rw [hn']
    simp only [] at h ⊢
    rw [ext_push]
    cases hp : css_push_char b1 0 with
    | error e => rw [hp] at h; exact Except.noConfusion h
    | ok b2 =>
      rw [hp] at h
      simp only [Except.map]
      injection h with h'
      injection h' with h1 h2
      subst h1; subst h2
      exact ⟨rfl, wfb_push hw1 hp⟩

theorem extb_set (b : Lexbuf) (x : Nat) (y : List Nat) :
    extb { b with color := x, string := y } = { extb b with color := x, string := y } := by
  unfold extb
  by_cases h0 : b.c = 0 <;> simp [h0]

theorem wfb_set {b : Lexbuf} (h : wfb b) (x : Nat) (y : List Nat) :
    wfb { b with color := x, string := y } := by
  unfold wfb at h ⊢
  simpa using h

theorem ext_css_lex_color {b : Lexbuf} {t : Tok} {b' : Lexbuf} (hw : wfb b)
    (h : css_lex_color b = .ok (t, b')) :
    css_lex_color (extb b) = .ok (t, extb b') ∧ wfb b' := by
  unfold css_lex_color at h ⊢
  cases h1 : ishex b.c with
  | none => rw [h1] at h; exact Except.noConfusion h
  | some a =>
    rw [h1] at h
    have h10 : b.c ≠ 0 := by
      intro h0; rw [h0, (by decide : ishex 0 = Option.none)] at h1; exact Option.noConfusion h1
    rw [extb_ishex, h1]
    simp only [] at h ⊢
    rw [ext_next hw h10]
    cases h2 : ishex (css_lex_next b).c with
    | none => rw [h2] at h; exact Except.noConfusion h
    | some v2 =>
      rw [h2] at h
      have h20 : (css_lex_next b).c ≠ 0 := by
        intro h0; rw [h0, (by decide : ishex 0 = Option.none)] at h2; exact Option.noConfusion h2
      rw [extb_ishex, h2]
      simp only [] at h ⊢
      rw [ext_next (wfb_next hw) h20]
      cases h3 : ishex (css_lex_next (css_lex_next b)).c with
      | none => rw [h3] at h; exact Except.noConfusion h
      | some v3 =>
        rw [h3] at h
        have h30 : (css_lex_next (css_lex_next b)).c ≠ 0 := by
          intro h0; rw [h0, (by decide : ishex 0 = Option.none)] at h3; exact Option.noConfusion h3
        rw [extb_ishex, h3]
        simp only [] at h ⊢
        rw [ext_next (wfb_next (wfb_next hw)) h30]
        cases h4 : ishex (css_lex_next (css_lex_next (css_lex_next b))).c with
        | none =>
          rw [h4] at h
          rw [extb_ishex, h4]
          simp only [] at h ⊢
          injection h with h'
          injection h' with hA hB
          subst hA; subst hB
          rw [← extb_set]
          exact ⟨rfl, wfb_set (wfb_next (wfb_next (wfb_next hw))) _ _⟩
        | some v4 =>
          rw [h4] at h
          have h40 : (css_lex_next (css_lex_next (css_lex_next b))).c ≠ 0 := by
            intro h0; rw [h0, (by decide : ishex 0 = Option.none)] at h4; exact Option.noConfusion h4
          rw [extb_ishex, h4]
          simp only [] at h ⊢
          rw [ext_next (wfb_next (wfb_next (wfb_next hw))) h40]
          cases h5 : ishex (css_lex_next (css_lex_next (css_lex_next
              (css_lex_next b)))).c with
          | none => rw [h5] at h; exact Except.noConfusion h
          | some v5 =>
            rw [h5] at h
            have h50 : (css_lex_next (css_lex_next (css_lex_next
                (css_lex_next b)))).c ≠ 0 := by
              intro h0; rw [h0, (by decide : ishex 0 = Option.none)] at h5; exact Option.noConfusion h5
            rw [extb_ishex, h5]
            simp only [] at h ⊢
            rw [ext_next (wfb_next (wfb_next (wfb_next (wfb_next hw)))) h50]
            cases h6 : ishex (css_lex_next (css_lex_next (css_lex_next
                (css_lex_next (css_lex_next b))))).c with
            | none => rw [h6] at h; exact Except.noConfusion h
            | some v6 =>
              rw [h6] at h
              have h60 : (css_lex_next (css_lex_next (css_lex_next
                  (css_lex_next (css_lex_next b))))).c ≠ 0 := by
                intro h0; rw [h0, (by decide : ishex 0 = Option.none)] at h6; exact Option.noConfusion h6
              rw [extb_ishex, h6]
              simp only [] at h ⊢
              rw [ext_next (wfb_next (wfb_next (wfb_next (wfb_next
                  (wfb_next hw))))) h60]
              injection h with h'
              injection h' with hA hB
              subst hA; subst hB
              rw [← extb_set]
              exact ⟨rfl, wfb_set (wfb_next (wfb_next (wfb_next (wfb_next
                  (wfb_next (wfb_next hw)))))) _ _⟩

theorem ext_css_lex_minus {fuel : Nat} {b : Lexbuf} {t : Tok} {b' : Lexbuf} (hw : wfb b)
    (h : css_lex_minus fuel b = .ok (t, b')) :
    css_lex_minus fuel (extb b) = .ok (t, extb b') ∧ wfb b' := by
  unfold css_lex_minus at h ⊢
  by_cases hd : isdigit b.c
  · rw [if_pos hd] at h
    rw [extb_isdigit, if_pos hd, ext_push]
    cases hp : css_push_char b 45 with
    | error e => rw [hp] at h; exact Except.noConfusion h
    | ok b1 =>
      rw [hp] at h
      simp only [Except.map]
      obtain ⟨hc1, hs1, _, _⟩ := push_parts hp
      have hw1 : wfb b1 := by unfold wfb; rw [hc1, hs1]; exact hw
      exact ext_css_lex_number hw1 h
  · rw [if_neg hd] at h
    by_cases hnm : isnmstart b.c
    · have h0 : b.c ≠ 0 := by
        intro h0; rw [h0] at hnm; exact absurd hnm (by decide)
      rw [if_pos hnm] at h
      rw [extb_isdigit, extb_isnmstart, if_neg hd, if_pos hnm, ext_push]
      cases hp : css_push_char b 45 with
      | error e => rw [hp] at h; exact Except.noConfusion h
      | ok b1 =>
        rw [hp] at h
        simp only [Except.map]
        simp only [] at h ⊢
        obtain ⟨hc1, hs1, _, _⟩ := push_parts hp
        have hw1 : wfb b1 := by unfold wfb; rw [hc1, hs1]; exact hw
        have hce1 : (extb b1).c = b1.c := by
          rw [extb_c, if_neg (by rw [hc1]; exact h0)]
        rw [hce1, ext_push]
        cases hp2 : css_push_char b1 b1.c with
        | error e => rw [hp2] at h; exact Except.noConfusion h
        | ok b2 =>
          rw [hp2] at h
          simp only [Except.map]
          simp only [] at h ⊢
          obtain ⟨hc2, hs2, _, _⟩ := push_parts hp2
          have hw2 : wfb b2 := by unfold wfb; rw [hc2, hs2]; exact hw1
          have h02 : b2.c ≠ 0 := by rw [hc2, hc1]; exact h0
          rw [ext_next hw2 h02]
          exact ext_css_lex_keyword (wfb_next hw2) h
    · rw [if_neg hnm] at h
      injection h with h'
      injection h' with h1 h2
      subst h1; subst h2
      rw [extb_isdigit, extb_isnmstart, if_neg hd, if_neg hnm]
      exact ⟨rfl, hw⟩

theorem ext_css_lex_url {fuel : Nat} {b : Lexbuf} {t : Tok} {b' : Lexbuf} (hw : wfb b)
    (h : css_lex_url fuel b = .ok (t, b')) :
    css_lex_url fuel (extb b) = .ok (t, extb b') ∧ wfb b' := by
  unfold css_lex_url at h ⊢
  by_cases h114 : b.c = 114
  · have h0 : b.c ≠ 0 := by rw [h114]; decide
    rw [if_pos h114] at h
    rw [if_pos (extb_c_pos (by decide) h114), ext_next hw h0]
    by_cases h108 : (css_lex_next b).c = 108
    · have h01 : (css_lex_next b).c ≠ 0 := by rw [h108]; decide
      rw [if_pos h108] at h
      rw [if_pos (extb_c_pos (by decide) h108), ext_next (wfb_next hw) h01]
      by_cases h40 : (css_lex_next (css_lex_next b)).c = 40
      · have h02 : (css_lex_next (css_lex_next b)).c ≠ 0 := by rw [h40]; decide
        rw [if_pos h40] at h
        rw [if_pos (extb_c_pos (by decide) h40), ext_next (wfb_next (wfb_next hw)) h02]
        cases he : css_lex_expect (css_lex_next (css_lex_next (css_lex_next b))) 41 with
        | error e => rw [he] at h; exact Except.noConfusion h
        | ok b1 =>
          rw [he] at h
          obtain ⟨he', hw1⟩ :=
            ext_expect (wfb_next (wfb_next (wfb_next hw))) (by decide) (by decide) he
          rw [he']
          injection h with h'
          injection h' with h1 h2
          subst h1; subst h2
          exact ⟨rfl, hw1⟩
      · rw [if_neg h40] at h
        rw [if_neg (extb_c_ne (by decide) h40), ext_push]
        cases hp1 : css_push_char (css_lex_next (css_lex_next b)) 117 with
        | error e => rw [hp1] at h; exact Except.noConfusion h
        | ok b1 =>
          rw [hp1] at h
          simp only [Except.map]
          simp only [] at h ⊢
          have hw1 : wfb b1 := wfb_push (wfb_next (wfb_next hw)) hp1
          rw [ext_push]
          cases hp2 : css_push_char b1 114 with
          | error e => rw [hp2] at h; exact Except.noConfusion h
          | ok b2 =>
            rw [hp2] at h
            simp only [Except.map]
            simp only [] at h ⊢
            have hw2 : wfb b2 := wfb_push hw1 hp2
            rw [ext_push]
            cases hp3 : css_push_char b2 108 with
            | error e => rw [hp3] at h; exact Except.noConfusion h
            | ok b3 =>
              rw [hp3] at h
              simp only [Except.map]
              simp only [] at h ⊢
              exact ext_css_lex_keyword (wfb_push hw2 hp3) h
    · rw [if_neg h108] at h
      rw [if_neg (extb_c_ne (by decide) h108), ext_push]
      cases hp1 : css_push_char (css_lex_next b) 117 with
      | error e => rw [hp1] at h; exact Except.noConfusion h
      | ok b1 =>
        rw [hp1] at h
        simp only [Except.map]
        simp only [] at h ⊢
        have hw1 : wfb b1 := wfb_push (wfb_next hw) hp1
        rw [ext_push]
        cases hp2 : css_push_char b1 114 with
        | error e => rw [hp2] at h; exact Except.noConfusion h
        | ok b2 =>
          rw [hp2] at h
          simp only [Except.map]
          simp only [] at h ⊢
          exact ext_css_lex_keyword (wfb_push hw1 hp2) h
  · rw [if_neg h114] at h
    rw [if_neg (extb_c_ne (by decide) h114), ext_push]
    cases hp1 : css_push_char b 117 with
    | error e => rw [hp1] at h; exact Except.noConfusion h
    | ok b1 =>
      rw [hp1] at h
      simp only [Except.map]
      simp only [] at h ⊢
      exact ext_css_lex_keyword (wfb_push hw hp1) h

theorem css_lex_string_c0 {f q : Nat} {b : Lexbuf} {r : Tok × Lexbuf}
    (h0 : b.c = 0) (hq : q ≠ 0) : css_lex_string f q b ≠ .ok r := by
  cases f with
  | zero => exact fun h => Except.noConfusion h
  | succ f =>
    rw [css_lex_string]
    rw [if_neg (by rw [h0]; exact fun hc => hc.1 rfl)]
    unfold css_lex_expect
    rw [if_neg (by rw [h0]; exact fun hc => hq hc.symm)]
    exact fun h => Except.noConfusion h

theorem ext_css_lex_string : ∀ {f q : Nat} {b : Lexbuf} {t : Tok} {b' : Lexbuf},
    q ≠ 0 → q ≠ 125 → wfb b → css_lex_string f q b = .ok (t, b') →
    css_lex_string f q (extb b) = .ok (t, extb b') ∧ wfb b' := by
  intro f
  induction f with
  | zero => intro q b t b' _ _ _ h; exact Except.noConfusion h
  | succ f ih =>
    intro q b t b' hq0 hq125 hw h
    rw [css_lex_string] at h ⊢
    by_cases hcond : b.c ≠ 0 ∧ b.c ≠ q
    · have h0 : b.c ≠ 0 := hcond.1
      have hce : (extb b).c = b.c := by rw [extb_c, if_neg h0]
      rw [if_pos hcond] at h
      rw [if_pos (by rw [hce]; exact hcond)]
      rw [hce, ext_next hw h0]
      by_cases h92 : b.c = 92
      · rw [if_pos h92] at h
        rw [if_pos h92]
        by_cases h110 : (css_lex_next b).c = 110
        · have h01 : (css_lex_next b).c ≠ 0 := by rw [h110]; decide
          rw [if_pos h110] at h
          rw [if_pos (extb_c_pos (by decide) h110), ext_next (wfb_next hw) h01, ext_push]
          cases hp : css_push_char (css_lex_next (css_lex_next b)) 10 with
          | error e => rw [hp] at h; exact Except.noConfusion h
          | ok b2 =>
            rw [hp] at h
            simp only [Except.map]
            simp only [] at h ⊢
            exact ih hq0 hq125 (wfb_push (wfb_next (wfb_next hw)) hp) h
        · rw [if_neg h110] at h
          rw [if_neg (extb_c_ne (by decide) h110)]
          by_cases h114 : (css_lex_next b).c = 114
          · have h01 : (css_lex_next b).c ≠ 0 := by rw [h114]; decide
            rw [if_pos h114] at h
            rw [if_pos (extb_c_pos (by decide) h114), ext_next (wfb_next hw) h01,
              ext_push]
            cases hp : css_push_char (css_lex_next (css_lex_next b)) 13 with
            | error e => rw [hp] at h; exact Except.noConfusion h
            | ok b2 =>
              rw [hp] at h
              simp only [Except.map]
              simp only [] at h ⊢
              exact ih hq0 hq125 (wfb_push (wfb_next (wfb_next hw)) hp) h
          · rw [if_neg h114] at h
            rw [if_neg (extb_c_ne (by decide) h114)]
            by_cases h102 : (css_lex_next b).c = 102
            · have h01 : (css_lex_next b).c ≠ 0 := by rw [h102]; decide
              rw [if_pos h102] at h
              rw [if_pos (extb_c_pos (by decide) h102), ext_next (wfb_next hw) h01,
                ext_push]
              cases hp : css_push_char (css_lex_next (css_lex_next b)) 12 with
              | error e => rw [hp] at h; exact Except.noConfusion h
              | ok b2 =>
                rw [hp] at h
                simp only [Except.map]
                simp only [] at h ⊢
                exact ih hq0 hq125 (wfb_push (wfb_next (wfb_next hw)) hp) h
            · rw [if_neg h102] at h
              rw [if_neg (extb_c_ne (by decide) h102)]
              by_cases h12 : (css_lex_next b).c = 12
              · have h01 : (css_lex_next b).c ≠ 0 := by rw [h12]; decide
                rw [if_pos h12] at h
                rw [if_pos (extb_c_pos (by decide) h12), ext_next (wfb_next hw) h01]
                exact ih hq0 hq125 (wfb_next (wfb_next hw)) h
              · rw [if_neg h12] at h
                rw [if_neg (extb_c_ne (by decide) h12)]
                by_cases h10 : (css_lex_next b).c = 10
                · have h01 : (css_lex_next b).c ≠ 0 := by rw [h10]; decide
                  rw [if_pos h10] at h
                  rw [if_pos (extb_c_pos (by decide) h10), ext_next (wfb_next hw) h01]
                  exact ih hq0 hq125 (wfb_next (wfb_next hw)) h
                · rw [if_neg h10] at h
                  rw [if_neg (extb_c_ne (by decide) h10)]
                  by_cases h13 : (css_lex_next b).c = 13
                  · have h01 : (css_lex_next b).c ≠ 0 := by rw [h13]; decide
                    rw [if_pos h13] at h
                    rw [if_pos (extb_c_pos (by decide) h13),
                      ext_next (wfb_next hw) h01]
                    by_cases h10b : (css_lex_next (css_lex_next b)).c = 10
                    · have h02 : (css_lex_next (css_lex_next b)).c ≠ 0 := by
                        rw [h10b]; decide
                      rw [if_pos h10b] at h
                      rw [if_pos (extb_c_pos (by decide) h10b),
                        ext_next (wfb_next (wfb_next hw)) h02]
                      exact ih hq0 hq125 (wfb_next (wfb_next (wfb_next hw))) h
                    · rw [if_neg h10b] at h
                      rw [if_neg (extb_c_ne (by decide) h10b)]
                      exact ih hq0 hq125 (wfb_next (wfb_next hw)) h
                  · rw [if_neg h13] at h
                    rw [if_neg (extb_c_ne (by decide) h13)]
                    by_cases h01 : (css_lex_next b).c = 0
                    · cases hp : css_push_char (css_lex_next b) ((css_lex_next b).c) with
                      | error e => rw [hp] at h; exact Except.noConfusion h
                      | ok b2 =>
                        rw [hp] at h
                        simp only [] at h
                        obtain ⟨hc2, hs2, _, _⟩ := push_parts hp
                        have hn2 : (css_lex_next b2).c = 0 := by
                          rw [css_lex_next_c, hs2, (wfb_next hw).2 h01]
                          rfl
                        exact absurd h (css_lex_string_c0 hn2 hq0)
                    · have hce1 : (extb (css_lex_next b)).c = (css_lex_next b).c := by
                        rw [extb_c, if_neg h01]
                      rw [hce1, ext_push]
                      cases hp : css_push_char (css_lex_next b) ((css_lex_next b).c) with
                      | error e => rw [hp] at h; exact Except.noConfusion h
                      | ok b2 =>
                        rw [hp] at h
                        simp only [Except.map]
                        simp only [] at h ⊢
                        obtain ⟨hc2, hs2, _, _⟩ := push_parts hp
                        have hw2 : wfb b2 := by
                          unfold wfb; rw [hc2, hs2]; exact wfb_next hw
                        rw [ext_next hw2 (hc2 ▸ h01)]
                        exact ih hq0 hq125 (wfb_next hw2) h
      · rw [if_neg h92] at h
        rw [if_neg h92, ext_push]
        cases hp : css_push_char b b.c with
        | error e => rw [hp] at h; exact Except.noConfusion h
        | ok b1 =>
          rw [hp] at h
          simp only [Except.map]
          simp only [] at h ⊢
          obtain ⟨hc1, hs1, _, _⟩ := push_parts hp
          have hw1 : wfb b1 := by unfold wfb; rw [hc1, hs1]; exact hw
          rw [ext_next hw1 (hc1 ▸ h0)]
          exact ih hq0 hq125 (wfb_next hw1) h
    · rw [if_neg hcond] at h
      by_cases hbq : b.c = q
      · rw [if_neg (fun hc => hc.2 (extb_c_pos hq0 hbq))]
        cases he : css_lex_expect b q with
        | error e => rw [he] at h; exact Except.noConfusion h
        | ok b1 =>
          rw [he] at h
          obtain ⟨he', hw1⟩ := ext_expect hw hq0 hq125 he
          rw [he']
          simp only [] at h ⊢
          rw [ext_push]
          cases hp : css_push_char b1 0 with
          | error e => rw [hp] at h; exact Except.noConfusion h
          | ok b2 =>
            rw [hp] at h
            simp only [Except.map]
            injection h with h'
            injection h' with h1 h2
            subst h1; subst h2
            exact ⟨rfl, wfb_push hw1 hp⟩
      · unfold css_lex_expect at h
        rw [if_neg hbq] at h
        exact Except.noConfusion h

theorem extb_next_eof {b : Lexbuf} (h0 : b.c = 0) (hs : b.s = []) :
    css_lex_next (extb b) = b := by
  obtain ⟨s, ln, c, co, st, sl⟩ := b
  simp only [] at h0 hs
  subst h0; subst hs
  rfl

theorem extb_reset (b : Lexbuf) :
    extb { b with string := [], string_len := 0 } =
      { extb b with string := [], string_len := 0 } := by
  unfold extb
  by_cases h0 : b.c = 0 <;> simp [h0]

theorem wfb_reset {b : Lexbuf} (h : wfb b) :
    wfb { b with string := [], string_len := 0 } := by
  unfold wfb at h ⊢
  simpa using h

theorem ext_css_lex_loop : ∀ {f : Nat} {b : Lexbuf} {t : Tok} {b' : Lexbuf},
    wfb b → css_lex_loop f b = .ok (t, b') →
    (t ≠ .eof → css_lex_loop f (extb b) = .ok (t, extb b') ∧ wfb b') ∧
    (t = .eof → css_lex_loop f (extb b) = .ok (.chr 125, b') ∧ b'.c = 0 ∧ b'.s = []) := by
  intro f
  induction f with
  | zero => intro b t b' hw h; exact Except.noConfusion h
  | succ f ih =>
    intro b t b' hw h
    rw [css_lex_loop] at h ⊢
    cases hsw : skip_white (f+1) b with
    | error e => rw [hsw] at h; exact Except.noConfusion h
    | ok b1 =>
      rw [hsw] at h
      obtain ⟨hsw', hw1⟩ := ext_skip_white hw hsw
      rw [hsw']
      simp only [] at h ⊢
      by_cases h0 : b1.c = 0
      · rw [if_pos h0] at h
        injection h with h'
        injection h' with hA hB
        subst hA; subst hB
        rw [extb_c, if_pos h0]
        rw [if_neg (by decide : ¬ (125:Nat) = 0), if_neg (by decide : ¬ (125:Nat) = 47),
            if_neg (by decide : ¬ (125:Nat) = 60), if_neg (by decide : ¬ (125:Nat) = 45),
            if_neg (by decide : ¬ (125:Nat) = 43), if_neg (by decide : ¬ (125:Nat) = 46),
            if_neg (by decide : ¬ (125:Nat) = 35), if_neg (by decide : ¬ (125:Nat) = 34),
            if_neg (by decide : ¬ (125:Nat) = 39),
            if_neg (by decide : ¬ isdigit 125 = true),
            if_neg (by decide : ¬ (125:Nat) = 117),
            if_neg (by decide : ¬ isnmstart 125 = true)]
        rw [extb_next_eof h0 (hw1.2 h0)]
        refine ⟨fun ht => absurd rfl ht, fun _ => ⟨rfl, h0, hw1.2 h0⟩⟩
      · rw [if_neg h0] at h
        have hce : (extb b1).c = b1.c := by rw [extb_c, if_neg h0]
        rw [hce, if_neg h0, ext_next hw1 h0]
        by_cases h47 : b1.c = 47
        · rw [if_pos h47] at h
          rw [if_pos h47]
          by_cases h42 : (css_lex_next b1).c = 42
          · have h01 : (css_lex_next b1).c ≠ 0 := by rw [h42]; decide
            rw [if_pos h42] at h
            rw [if_pos (extb_c_pos (by decide) h42), ext_next (wfb_next hw1) h01]
            cases hsc : skip_comment (f+1) (css_lex_next (css_lex_next b1)) with
            | error e => rw [hsc] at h; exact Except.noConfusion h
            | ok b2 =>
              rw [hsc] at h
              obtain ⟨hsc', hw2⟩ := ext_skip_comment (wfb_next (wfb_next hw1)) hsc
              rw [hsc']
              simp only [] at h ⊢
              exact ih hw2 h
          · rw [if_neg h42] at h
            rw [if_neg (extb_c_ne (by decide) h42)]
            injection h with h'
            injection h' with hA hB
            subst hA; subst hB
            exact ⟨fun _ => ⟨rfl, wfb_next hw1⟩, fun heof => Tok.noConfusion heof⟩
        · rw [if_neg h47] at h
          rw [if_neg h47]
          by_cases h60 : b1.c = 60
          · rw [if_pos h60] at h
            rw [if_pos h60]
            by_cases h33 : (css_lex_next b1).c = 33
            · have h01 : (css_lex_next b1).c ≠ 0 := by rw [h33]; decide
              rw [if_pos h33] at h
              rw [if_pos (extb_c_pos (by decide) h33), ext_next (wfb_next hw1) h01]
              cases he1 : css_lex_expect (css_lex_next (css_lex_next b1)) 45 with
              | error e => rw [he1] at h; exact Except.noConfusion h
              | ok b2 =>
                rw [he1] at h
                obtain ⟨he1', hw2⟩ :=
                  ext_expect (wfb_next (wfb_next hw1)) (by decide) (by decide) he1
                rw [he1']
                simp only [] at h ⊢
                cases he2 : css_lex_expect b2 45 with
                | error e => rw [he2] at h; exact Except.noConfusion h
                | ok b3 =>
                  rw [he2] at h
                  obtain ⟨he2', hw3⟩ := ext_expect hw2 (by decide) (by decide) he2
                  rw [he2']
                  simp only [] at h ⊢
                  exact ih hw3 h
            · rw [if_neg h33] at h
              rw [if_neg (extb_c_ne (by decide) h33)]
              injection h with h'
              injection h' with hA hB
              subst hA; subst hB
              exact ⟨fun _ => ⟨rfl, wfb_next hw1⟩, fun heof => Tok.noConfusion heof⟩
          · rw [if_neg h60] at h
            rw [if_neg h60]
            by_cases h45 : b1.c = 45
            · rw [if_pos h45] at h
              rw [if_pos h45]
              by_cases h45b : (css_lex_next b1).c = 45
              · have h01 : (css_lex_next b1).c ≠ 0 := by rw [h45b]; decide
                rw [if_pos h45b] at h
                rw [if_pos (extb_c_pos (by decide) h45b), ext_next (wfb_next hw1) h01]
                cases he1 : css_lex_expect (css_lex_next (css_lex_next b1)) 62 with
                | error e => rw [he1] at h; exact Except.noConfusion h
                | ok b2 =>
                  rw [he1] at h
                  obtain ⟨he1', hw2⟩ :=
                    ext_expect (wfb_next (wfb_next hw1)) (by decide) (by decide) he1
                  rw [he1']
                  simp only [] at h ⊢
                  exact ih hw2 h
              · rw [if_neg h45b] at h
                rw [if_neg (extb_c_ne (by decide) h45b)]
                obtain ⟨hm, hwm⟩ := ext_css_lex_minus (wfb_next hw1) h
                refine ⟨fun _ => ⟨hm, hwm⟩, fun heof => ?_⟩
                rcases css_lex_minus_kind h with h1 | h1 | h1 | h1 | h1 <;>
                  (subst h1; exact Tok.noConfusion heof)
            · rw [if_neg h45] at h
              rw [if_neg h45]
              by_cases h43 : b1.c = 43
              · rw [if_pos h43] at h
                rw [if_pos h43]
                by_cases hd1 : isdigit (css_lex_next b1).c
                · rw [if_pos hd1] at h
                  rw [extb_isdigit, if_pos hd1]
                  obtain ⟨hm, hwm⟩ := ext_css_lex_number (wfb_next hw1) h
                  refine ⟨fun _ => ⟨hm, hwm⟩, fun heof => ?_⟩
                  rcases css_lex_number_kind h with h1 | h1 | h1 <;>
                    (subst h1; exact Tok.noConfusion heof)
                · rw [if_neg hd1] at h
                  rw [extb_isdigit, if_neg hd1]
                  injection h with h'
                  injection h' with hA hB
                  subst hA; subst hB
                  exact ⟨fun _ => ⟨rfl, wfb_next hw1⟩, fun heof => Tok.noConfusion heof⟩
              · rw [if_neg h43] at h
                rw [if_neg h43]
                by_cases h46 : b1.c = 46
                · rw [if_pos h46] at h
                  rw [if_pos h46]
                  by_cases hd1 : isdigit (css_lex_next b1).c
                  · rw [if_pos hd1] at h
                    rw [extb_isdigit, if_pos hd1, ext_push]
                    cases hp : css_push_char (css_lex_next b1) 46 with
                    | error e => rw [hp] at h; exact Except.noConfusion h
                    | ok b2 =>
                      rw [hp] at h
                      simp only [Except.map]
                      simp only [] at h ⊢
                      have hw2 : wfb b2 := wfb_push (wfb_next hw1) hp
                      obtain ⟨hm, hwm⟩ := ext_css_lex_number hw2 h
                      refine ⟨fun _ => ⟨hm, hwm⟩, fun heof => ?_⟩
                      rcases css_lex_number_kind h with h1 | h1 | h1 <;>
                        (subst h1; exact Tok.noConfusion heof)
                  · rw [if_neg hd1] at h
                    rw [extb_isdigit, if_neg hd1]
                    injection h with h'
                    injection h' with hA hB
                    subst hA; subst hB
                    exact ⟨fun _ => ⟨rfl, wfb_next hw1⟩, fun heof => Tok.noConfusion heof⟩
                · rw [if_neg h46] at h
                  rw [if_neg h46]
                  by_cases h35 : b1.c = 35
                  · rw [if_pos h35] at h
                    rw [if_pos h35]
                    obtain ⟨hm, hwm⟩ := ext_css_lex_color (wfb_next hw1) h
                    refine ⟨fun _ => ⟨hm, hwm⟩, fun heof => ?_⟩
                    have h1 := css_lex_color_kind h
                    subst h1; exact Tok.noConfusion heof
                  · rw [if_neg h35] at h
                    rw [if_neg h35]
                    by_cases h34 : b1.c = 34
                    · rw [if_pos h34] at h
                      rw [if_pos h34]
                      obtain ⟨hm, hwm⟩ :=
                        ext_css_lex_string (by decide) (by decide) (wfb_next hw1) h
                      refine ⟨fun _ => ⟨hm, hwm⟩, fun heof => ?_⟩
                      have h1 := css_lex_string_kind h
                      subst h1; exact Tok.noConfusion heof
                    · rw [if_neg h34] at h
                      rw [if_neg h34]
                      by_cases h39 : b1.c = 39
                      · rw [if_pos h39] at h
                        rw [if_pos h39]
                        obtain ⟨hm, hwm⟩ :=
                          ext_css_lex_string (by decide) (by decide) (wfb_next hw1) h
                        refine ⟨fun _ => ⟨hm, hwm⟩, fun heof => ?_⟩
                        have h1 := css_lex_string_kind h
                        subst h1; exact Tok.noConfusion heof
                      · rw [if_neg h39] at h
                        rw [if_neg h39]
                        by_cases hdig : isdigit b1.c
                        · rw [if_pos hdig] at h
                          rw [if_pos hdig]
                          obtain ⟨hm, hwm⟩ := ext_css_lex_number hw1 h
                          refine ⟨fun _ => ⟨hm, hwm⟩, fun heof => ?_⟩
                          rcases css_lex_number_kind h with h1 | h1 | h1 <;>
                            (subst h1; exact Tok.noConfusion heof)
                        · rw [if_neg hdig] at h
                          rw [if_neg hdig]
                          by_cases h117 : b1.c = 117
                          · rw [if_pos h117] at h
                            rw [if_pos h117]
                            obtain ⟨hm, hwm⟩ := ext_css_lex_url (wfb_next hw1) h
                            refine ⟨fun _ => ⟨hm, hwm⟩, fun heof => ?_⟩
                            rcases css_lex_url_kind h with h1 | h1 <;>
                              (subst h1; exact Tok.noConfusion heof)
                          · rw [if_neg h117] at h
                            rw [if_neg h117]
                            by_cases hnm : isnmstart b1.c
                            · rw [if_pos hnm] at h
                              rw [if_pos hnm, ext_push]
                              cases hp : css_push_char b1 b1.c with
                              | error e => rw [hp] at h; exact Except.noConfusion h
                              | ok b2 =>
                                rw [hp] at h
                                simp only [Except.map]
                                simp only [] at h ⊢
                                obtain ⟨hc2, hs2, _, _⟩ := push_parts hp
                                have hw2 : wfb b2 := by
                                  unfold wfb; rw [hc2, hs2]; exact hw1
                                rw [ext_next hw2 (hc2 ▸ h0)]
                                obtain ⟨hm, hwm⟩ := ext_css_lex_keyword (wfb_next hw2) h
                                refine ⟨fun _ => ⟨hm, hwm⟩, fun heof => ?_⟩
                                have h1 := css_lex_keyword_kind h
                                subst h1; exact Tok.noConfusion heof
                            · rw [if_neg hnm] at h
                              rw [if_neg hnm]
                              injection h with h'
                              injection h' with hA hB
                              subst hA; subst hB
                              exact ⟨fun _ => ⟨rfl, wfb_next hw1⟩,
                                fun heof => Tok.noConfusion heof⟩

theorem ext_css_lex {fuel : Nat} {b : Lexbuf} {t : Tok} {b' : Lexbuf}
    (hw : wfb b) (h : css_lex fuel b = .ok (t, b')) :
    (t ≠ .eof → css_lex fuel (extb b) = .ok (t, extb b') ∧ wfb b') ∧
    (t = .eof → css_lex fuel (extb b) = .ok (.chr 125, b') ∧ b'.c = 0 ∧ b'.s = []) := by
  unfold css_lex at h ⊢
  rw [← extb_reset]
  exact ext_css_lex_loop (wfb_reset hw) h

theorem pext_case1 {st stx : PState} (hp : pext st stx) (hne : st.la ≠ .eof) :
    stx.la = st.la ∧ stx.buf = extb st.buf ∧ wfb st.buf := by
  rcases hp with ⟨_, hla, hbuf, hw⟩ | ⟨heq, _, _, _, _⟩
  · exact ⟨hla, hbuf, hw⟩
  · exact absurd heq hne

theorem pext_pos {st stx : PState} (hp : pext st stx) {T : Tok} (hT : T ≠ .eof)
    (hk : st.la = T) : stx.la = T ∧ stx.buf = extb st.buf ∧ wfb st.buf := by
  rcases hp with ⟨_, hla, hbuf, hw⟩ | ⟨heq, _, _, _, _⟩
  · exact ⟨hla.trans hk, hbuf, hw⟩
  · exact absurd (heq.symm.trans hk) (fun h => hT h.symm)

theorem pext_neg {st stx : PState} (hp : pext st stx) {T : Tok} (hT125 : T ≠ .chr 125)
    (hk : st.la ≠ T) : stx.la ≠ T := by
  rcases hp with ⟨_, hla, _, _⟩ | ⟨_, hla, _, _, _⟩
  · rw [hla]; exact hk
  · rw [hla]; exact fun h => hT125 h.symm

theorem tokStr_extb (b : Lexbuf) : tokStr (extb b) = tokStr b := by
  unfold tokStr
  rw [extb_string]

theorem ext_next_p {f : Nat} {st st' stx : PState} (hw : wfb st.buf)
    (hbuf : stx.buf = extb st.buf) (h : next f st = .ok st') :
    ∃ stx', next f stx = .ok stx' ∧ pext st' stx' := by
  unfold next at h ⊢
  rw [hbuf]
  cases hl : css_lex f st.buf with
  | error e => rw [hl] at h; exact Except.noConfusion h
  | ok p =>
    obtain ⟨t, b⟩ := p
    rw [hl] at h
    injection h with h'
    subst h'
    obtain ⟨g1, g2⟩ := ext_css_lex hw hl
    by_cases ht : t = .eof
    · obtain ⟨he, hc, hs⟩ := g2 ht
      rw [he]
      exact ⟨⟨.chr 125, b⟩, rfl, Or.inr ⟨ht, rfl, rfl, hc, hs⟩⟩
    · obtain ⟨he, hwb⟩ := g1 ht
      rw [he]
      exact ⟨⟨t, extb b⟩, rfl, Or.inl ⟨ht, rfl, rfl, hwb⟩⟩

theorem ext_expect_p {f : Nat} {t : Tok} {st st' stx : PState}
    (hT : t ≠ .eof) (hT125 : t ≠ .chr 125) (hp : pext st stx)
    (h : expect f t st = .ok st') :
    ∃ stx', expect f t stx = .ok stx' ∧ pext st' stx' := by
  unfold expect at h ⊢
  by_cases hk : st.la = t
  · obtain ⟨hla, hbuf, hw⟩ := pext_pos hp hT hk
    rw [if_pos hk] at h
    rw [if_pos hla]
    exact ext_next_p hw hbuf h
  · rw [if_neg hk] at h
    exact Except.noConfusion h

theorem ext_parse_value_pair : ∀ (f : Nat),
    (∀ {st stx st' : PState} {v : Value}, pext st stx → parse_value f st = .ok (v, st') →
      ∃ stx', parse_value f stx = .ok (v, stx') ∧ pext st' stx') ∧
    (∀ {st stx st' : PState} {vs : List Value}, pext st stx →
      parse_value_list f st = .ok (vs, st') →
      ∃ stx', parse_value_list f stx = .ok (vs, stx') ∧ pext st' stx') := by
  intro f
  induction f with
  | zero =>
    constructor
    · intro st stx st' v hp h; exact Except.noConfusion h
    · intro st stx st' vs hp h; exact Except.noConfusion h
  | succ f ih =>
    constructor
    · intro st stx st' v hp h
      rw [parse_value] at h ⊢
      by_cases heof : st.la = .eof
      · rw [heof] at h
        simp at h
      obtain ⟨hla, hbuf, hw⟩ := pext_case1 hp heof
      rw [hla, hbuf, tokStr_extb]
      by_cases hk : st.la = .keyword
      · rw [if_pos hk] at h ⊢
        simp only [] at h ⊢
        cases hnx : next (f+1) st with
        | error e => rw [hnx] at h; exact Except.noConfusion h
        | ok st1 =>
          rw [hnx] at h
          obtain ⟨stx1, hnx', hp1⟩ := ext_next_p hw hbuf hnx
          rw [hnx']
          simp only [] at h ⊢
          by_cases h40 : st1.la = .chr 40
          · obtain ⟨hla1, hbuf1, hw1⟩ := pext_pos hp1 (by decide) h40
            rw [if_pos h40] at h
            rw [if_pos hla1]
            cases hnx2 : next (f+1) st1 with
            | error e => rw [hnx2] at h; exact Except.noConfusion h
            | ok st2 =>
              rw [hnx2] at h
              obtain ⟨stx2, hnx2', hp2⟩ := ext_next_p hw1 hbuf1 hnx2
              rw [hnx2']
              simp only [] at h ⊢
              cases hvl : parse_value_list f st2 with
              | error e => rw [hvl] at h; exact Except.noConfusion h
              | ok p =>
                obtain ⟨args, st3⟩ := p
                rw [hvl] at h
                obtain ⟨stx3, hvl', hp3⟩ := ih.2 hp2 hvl
                rw [hvl']
                simp only [] at h ⊢
                cases hex : expect (f+1) (.chr 41) st3 with
                | error e => rw [hex] at h; exact Except.noConfusion h
                | ok st4 =>
                  rw [hex] at h
                  obtain ⟨stx4, hex', hp4⟩ := ext_expect_p (by decide) (by decide) hp3 hex
                  rw [hex']
                  simp only [] at h ⊢
                  injection h with h'
                  injection h' with hA hB
                  subst hA; subst hB
                  exact ⟨stx4, rfl, hp4⟩
          · have hne1 := pext_neg hp1 (by decide) h40
            rw [if_neg h40] at h
            rw [if_neg hne1]
            injection h with h'
            injection h' with hA hB
            subst hA; subst hB
            exact ⟨stx1, rfl, hp1⟩
      · rw [if_neg hk] at h ⊢
        by_cases hv : (st.la = Tok.number || st.la = Tok.length || st.la = Tok.percent ||
            st.la = Tok.string || st.la = Tok.color || st.la = Tok.uri) = true
        · rw [if_pos hv] at h ⊢
          simp only [] at h ⊢
          cases hnx : next (f+1) st with
          | error e => rw [hnx] at h; exact Except.noConfusion h
          | ok st1 =>
            rw [hnx] at h
            obtain ⟨stx1, hnx', hp1⟩ := ext_next_p hw hbuf hnx
            rw [hnx']
            simp only [] at h ⊢
            injection h with h'
            injection h' with hA hB
            subst hA; subst hB
            exact ⟨stx1, rfl, hp1⟩
        · rw [if_neg hv] at h ⊢
          by_cases h44 : st.la = .chr 44
          · rw [if_pos h44] at h ⊢
            cases hnx : next (f+1) st with
            | error e => rw [hnx] at h; exact Except.noConfusion h
            | ok st1 =>
              rw [hnx] at h
              obtain ⟨stx1, hnx', hp1⟩ := ext_next_p hw hbuf hnx
              rw [hnx']
              simp only [] at h ⊢
              injection h with h'
              injection h' with hA hB
              subst hA; subst hB
              exact ⟨stx1, rfl, hp1⟩
          · rw [if_neg h44] at h ⊢
            by_cases h47 : st.la = .chr 47
            · rw [if_pos h47] at h ⊢
              cases hnx : next (f+1) st with
              | error e => rw [hnx] at h; exact Except.noConfusion h
              | ok st1 =>
                rw [hnx] at h
                obtain ⟨stx1, hnx', hp1⟩ := ext_next_p hw hbuf hnx
                rw [hnx']
                simp only [] at h ⊢
                injection h with h'
                injection h' with hA hB
                subst hA; subst hB
                exact ⟨stx1, rfl, hp1⟩
            · rw [if_neg h47] at h
              exact Except.noConfusion h
    · intro st stx st' vs hp h
      rw [parse_value_list] at h ⊢
      by_cases hstop : (st.la = Tok.chr 125 || st.la = Tok.chr 59 || st.la = Tok.chr 33 ||
          st.la = Tok.chr 41 || st.la = Tok.eof) = true
      · rw [if_pos hstop] at h
        injection h with h'
        injection h' with hA hB
        subst hA; subst hB
        have hstop' : (stx.la = Tok.chr 125 || stx.la = Tok.chr 59 || stx.la = Tok.chr 33 ||
            stx.la = Tok.chr 41 || stx.la = Tok.eof) = true := by
          rcases hp with ⟨_, hla, _, _⟩ | ⟨_, hla, _, _, _⟩
          · rw [hla]; exact hstop
          · rw [hla]; decide
        rw [if_pos hstop']
        exact ⟨stx, rfl, hp⟩
      · have hne : st.la ≠ .eof := by
          intro he; exact hstop (by rw [he]; decide)
        obtain ⟨hla, hbuf, hw⟩ := pext_case1 hp hne
        have hstop'' : ¬ ((stx.la = Tok.chr 125 || stx.la = Tok.chr 59 ||
            stx.la = Tok.chr 33 || stx.la = Tok.chr 41 || stx.la = Tok.eof) = true) := by
          rw [hla]; exact hstop
        rw [if_neg hstop] at h
        rw [if_neg hstop'']
        cases hpv : parse_value f st with
        | error e => rw [hpv] at h; exact Except.noConfusion h
        | ok p =>
          obtain ⟨v, st1⟩ := p
          rw [hpv] at h
          obtain ⟨stx1, hpv', hp1⟩ := ih.1 hp hpv
          rw [hpv']
          simp only [] at h ⊢
          cases hvl : parse_value_list f st1 with
          | error e => rw [hvl] at h; exact Except.noConfusion h
          | ok p2 =>
            obtain ⟨vs2, st2⟩ := p2
            rw [hvl] at h
            obtain ⟨stx2, hvl', hp2⟩ := ih.2 hp1 hvl
            rw [hvl']
            simp only [] at h ⊢
            injection h with h'
            injection h' with hA hB
            subst hA; subst hB
            exact ⟨stx2, rfl, hp2⟩

theorem ext_parse_declaration {f : Nat} {st stx st' : PState} {p : Property}
    (hp : pext st stx) (h : parse_declaration f st = .ok (p, st')) :
    ∃ stx', parse_declaration f stx = .ok (p, stx') ∧ pext st' stx' := by
  unfold parse_declaration at h ⊢
  by_cases hk : st.la = .keyword
  · obtain ⟨hla, hbuf, hw⟩ := pext_pos hp (by decide) hk
    rw [if_pos hk] at h
    rw [if_pos hla, hbuf, tokStr_extb]
    simp only [] at h ⊢
    cases hnx : next f st with
    | error e => rw [hnx] at h; exact Except.noConfusion h
    | ok st1 =>
      rw [hnx] at h
      obtain ⟨stx1, hnx', hp1⟩ := ext_next_p hw hbuf hnx
      rw [hnx']
      simp only [] at h ⊢
      cases hex : expect f (.chr 58) st1 with
      | error e => rw [hex] at h; exact Except.noConfusion h
      | ok st2 =>
        rw [hex] at h
        obtain ⟨stx2, hex', hp2⟩ := ext_expect_p (by decide) (by decide) hp1 hex
        rw [hex']
        simp only [] at h ⊢
        cases hvl : parse_value_list f st2 with
        | error e => rw [hvl] at h; exact Except.noConfusion h
        | ok pr =>
          obtain ⟨vals, st3⟩ := pr
          rw [hvl] at h
          obtain ⟨stx3, hvl', hp3⟩ := (ext_parse_value_pair f).2 hp2 hvl
          rw [hvl']
          simp only [] at h ⊢
          by_cases h33 : st3.la = .chr 33
          · obtain ⟨hla3, hbuf3, hw3⟩ := pext_pos hp3 (by decide) h33
            rw [if_pos h33] at h
            rw [if_pos hla3]
            cases hnx2 : next f st3 with
            | error e => rw [hnx2] at h; exact Except.noConfusion h
            | ok st4 =>
              rw [hnx2] at h
              obtain ⟨stx4, hnx2', hp4⟩ := ext_next_p hw3 hbuf3 hnx2
              rw [hnx2']
              simp only [] at h ⊢
              cases hex2 : expect f .keyword st4 with
              | error e => rw [hex2] at h; exact Except.noConfusion h
              | ok st5 =>
                rw [hex2] at h
                obtain ⟨stx5, hex2', hp5⟩ := ext_expect_p (by decide) (by decide) hp4 hex2
                rw [hex2']
                simp only [] at h ⊢
                injection h with h'
                injection h' with hA hB
                subst hA; subst hB
                exact ⟨stx5, rfl, hp5⟩
          · have hne3 := pext_neg hp3 (by decide) h33
            rw [if_neg h33] at h
            rw [if_neg hne3]
            injection h with h'
            injection h' with hA hB
            subst hA; subst hB
            exact ⟨stx3, rfl, hp3⟩
  · rw [if_neg hk] at h
    exact Except.noConfusion h

theorem ext_declLoop : ∀ {f : Nat} {st stx st' : PState} {ps : List Property},
    pext st stx → declLoop f st = .ok (ps, st') →
    ∃ stx', declLoop f stx = .ok (ps, stx') ∧ pext st' stx' := by
  intro f
  induction f with
  | zero => intro st stx st' ps hp h; exact Except.noConfusion h
  | succ f ih =>
    intro st stx st' ps hp h
    rw [declLoop] at h ⊢
    by_cases h59 : st.la = .chr 59
    · obtain ⟨hla, hbuf, hw⟩ := pext_pos hp (by decide) h59
      rw [if_pos h59] at h
      rw [if_pos hla]
      cases hnx : next (f+1) st with
      | error e => rw [hnx] at h; exact Except.noConfusion h
      | ok st1 =>
        rw [hnx] at h
        obtain ⟨stx1, hnx', hp1⟩ := ext_next_p hw hbuf hnx
        rw [hnx']
        simp only [] at h ⊢
        by_cases hc : st1.la ≠ .chr 125 ∧ st1.la ≠ .chr 59 ∧ st1.la ≠ .eof
        · obtain ⟨hla1, hbuf1, hw1⟩ := pext_case1 hp1 hc.2.2
          rw [if_pos hc] at h
          rw [if_pos (by rw [hla1]; exact hc)]
          cases hpd : parse_declaration (f+1) st1 with
          | error e => rw [hpd] at h; exact Except.noConfusion h
          | ok pr =>
            obtain ⟨p, st2⟩ := pr
            rw [hpd] at h
            obtain ⟨stx2, hpd', hp2⟩ := ext_parse_declaration hp1 hpd
            rw [hpd']
            simp only [] at h ⊢
            cases hdl : declLoop f st2 with
            | error e => rw [hdl] at h; exact Except.noConfusion h
            | ok pr2 =>
              obtain ⟨ps2, st3⟩ := pr2
              rw [hdl] at h
              obtain ⟨stx3, hdl', hp3⟩ := ih hp2 hdl
              rw [hdl']
              simp only [] at h ⊢
              injection h with h'
              injection h' with hA hB
              subst hA; subst hB
              exact ⟨stx3, rfl, hp3⟩
        · have hcx : ¬ (stx1.la ≠ .chr 125 ∧ stx1.la ≠ .chr 59 ∧ stx1.la ≠ .eof) := by
            rcases hp1 with ⟨_, hla1, _, _⟩ | ⟨_, hla1, _, _, _⟩
            · rw [hla1]; exact hc
            · rw [hla1]; exact fun hcc => hcc.1 rfl
          rw [if_neg hc] at h
          rw [if_neg hcx]
          exact ih hp1 h
    · have hne := pext_neg hp (by decide) h59
      rw [if_neg h59] at h
      rw [if_neg hne]
      injection h with h'
      injection h' with hA hB
      subst hA; subst hB
      exact ⟨stx, rfl, hp⟩

theorem ext_parse_declaration_list {f : Nat} {st stx st' : PState} {ps : List Property}
    (hp : pext st stx) (h : parse_declaration_list f st = .ok (ps, st')) :
    ∃ stx', parse_declaration_list f stx = .ok (ps, stx') ∧ pext st' stx' := by
  unfold parse_declaration_list at h ⊢
  by_cases hstop : (st.la = Tok.chr 125 || st.la = Tok.eof) = true
  · rw [if_pos hstop] at h
    injection h with h'
    injection h' with hA hB
    subst hA; subst hB
    have hstop' : (stx.la = Tok.chr 125 || stx.la = Tok.eof) = true := by
      rcases hp with ⟨_, hla, _, _⟩ | ⟨_, hla, _, _, _⟩
      · rw [hla]; exact hstop
      · rw [hla]; decide
    rw [if_pos hstop']
    exact ⟨stx, rfl, hp⟩
  · have hne : st.la ≠ .eof := by
      intro he; exact hstop (by rw [he]; decide)
    obtain ⟨hla, hbuf, hw⟩ := pext_case1 hp hne
    have hstop'' : ¬ ((stx.la = Tok.chr 125 || stx.la = Tok.eof) = true) := by
      rw [hla]; exact hstop
    rw [if_neg hstop] at h
    rw [if_neg hstop'']
    cases hpd : parse_declaration f st with
    | error e => rw [hpd] at h; exact Except.noConfusion h
    | ok pr =>
      obtain ⟨p, st1⟩ := pr
      rw [hpd] at h
      obtain ⟨stx1, hpd', hp1⟩ := ext_parse_declaration hp hpd
      rw [hpd']
      simp only [] at h ⊢
      cases hdl : declLoop f st1 with
      | error e => rw [hdl] at h; exact Except.noConfusion h
      | ok pr2 =>
        obtain ⟨ps2, st2⟩ := pr2
        rw [hdl] at h
        obtain ⟨stx2, hdl', hp2⟩ := ext_declLoop hp1 hdl
        rw [hdl']
        simp only [] at h ⊢
        injection h with h'
        injection h' with hA hB
        subst hA; subst hB
        exact ⟨stx2, rfl, hp2⟩

theorem ext_init {s : List Nat} (h0 : (0:Nat) ∉ s) :
    css_lex_next ⟨s ++ [125], 1, 123, 0, [], 0⟩ = extb (css_lex_init s) ∧
      wfb (css_lex_init s) := by
  cases s with
  | nil =>
    refine ⟨rfl, ?_⟩
    unfold wfb css_lex_init css_lex_next
    exact ⟨by simp, fun _ => rfl⟩
  | cons x r =>
    have hx : x ≠ 0 := fun he => h0 (he ▸ List.mem_cons_self x r)
    constructor
    · simp [css_lex_init, css_lex_next, extb, hx]
    · unfold wfb css_lex_init css_lex_next
      simp only []
      exact ⟨fun hm => h0 (List.mem_cons_of_mem _ hm), fun he => absurd he hx⟩

theorem c5_first {G : Nat} {u : List Nat} :
    next (G+1) ⟨.eof, css_lex_init (42 :: 123 :: u)⟩ =
      .ok ⟨.chr 42, ⟨u, 1, 123, 0, [], 0⟩⟩ := by
  simp +decide [next, css_lex_init, css_lex_next, css_lex, css_lex_loop, skip_white,
    iswhite, isdigit, isnmstart]

theorem c5_sel {G : Nat} {u : List Nat} :
    parse_selector_list (G+1) ⟨.chr 42, ⟨u, 1, 123, 0, [], 0⟩⟩ =
      .ok ([.mk none 0 [] none none],
        ⟨.chr 123, css_lex_next ⟨u, 1, 123, 0, [], 0⟩⟩) := by
  simp +decide [parse_selector_list, parse_descendant_selector, parse_child_selector,
    parse_adjacent_selector, parse_simple_selector, selLoop, accept, iscond, next,
    css_lex, css_lex_loop, skip_white, iswhite, isdigit, isnmstart]

theorem next_c0 {f : Nat} {st : PState} (h0 : st.buf.c = 0) :
    next (f+1) st = .ok ⟨.eof, { st.buf with string := [], string_len := 0 }⟩ := by
  simp [next, css_lex, css_lex_loop, skip_white, iswhite, h0]

theorem styLoop_eof {f : Nat} {b : Lexbuf} :
    styLoop (f+1) ⟨.eof, b⟩ = .ok ([], ⟨.eof, b⟩) := by
  rw [styLoop]
  rw [if_pos rfl]

/-- C5: for a source `s` on which `fz_parse_css_properties` succeeds and on
which `fz_parse_css` of the wrapped source `*{` ++ `s` ++ the closing brace
returns a single rule, that rule's declaration chain is exactly the property
chain returned by `fz_parse_css_properties`.  (The proof is a token-for-token
simulation: appending the closing brace byte extends every successful lexer
step, `pext` matching the two parser states until the base scan hits end of
input, where the extended scan holds the closing-brace token.) -/
theorem c5_inline_equiv (fuel : Nat) (s : List Nat) (ps : List Property) (r : Rule)
    (h0 : (0:Nat) ∉ s) (hprops : fz_parse_css_properties fuel s = .ok ps)
    (hcss : fz_parse_css fuel [] ([42, 123] ++ s ++ [125]) = .ok [r]) :
    r.declaration = ps := by
  cases fuel with
  | zero => simp [fz_parse_css_properties, next, css_lex, css_lex_loop] at hprops
  | succ G =>
    rw [show ([42, 123] ++ s ++ [125] : List Nat) = 42 :: 123 :: (s ++ [125]) from
      by simp] at hcss
    unfold fz_parse_css_properties at hprops
    cases hnb : next (G+1) ⟨.eof, css_lex_init s⟩ with
    | error e => rw [hnb] at hprops; exact Except.noConfusion hprops
    | ok stb =>
      rw [hnb] at hprops
      simp only [] at hprops
      cases hdl : parse_declaration_list (G+1) stb with
      | error e => rw [hdl] at hprops; exact Except.noConfusion hprops
      | ok pr =>
        obtain ⟨ps0, stf⟩ := pr
        rw [hdl] at hprops
        simp only [] at hprops
        injection hprops with hps
        subst hps
        obtain ⟨hinit, hwinit⟩ := ext_init h0
        obtain ⟨stx2, hnx', hp2⟩ := ext_next_p hwinit
          (rfl : (⟨Tok.chr 123, extb (css_lex_init s)⟩ : PState).buf = extb (css_lex_init s))
          hnb
        obtain ⟨stxf, hdl', hpf⟩ := ext_parse_declaration_list hp2 hdl
        unfold fz_parse_css at hcss
        rw [c5_first] at hcss
        simp only [] at hcss
        unfold parse_stylesheet at hcss
        rw [styLoop] at hcss
        rw [if_neg (fun hh => Tok.noConfusion hh :
              ¬ ((⟨Tok.chr 42, (⟨s ++ [125], 1, 123, 0, [], 0⟩ : Lexbuf)⟩ : PState).la
                 = Tok.eof))] at hcss
        have hC2 : ¬ ((⟨Tok.chr 42, (⟨s ++ [125], 1, 123, 0, [], 0⟩ : Lexbuf)⟩ :
            PState).la = Tok.chr 64) := by simp
        rw [if_neg hC2] at hcss
        unfold parse_rule at hcss
        rw [c5_sel] at hcss
        simp only [] at hcss
        unfold expect at hcss
        rw [if_pos (rfl :
              (⟨Tok.chr 123, css_lex_next ⟨s ++ [125], 1, 123, 0, [], 0⟩⟩ : PState).la
                = Tok.chr 123)] at hcss
        rw [hinit, hnx'] at hcss
        simp only [] at hcss
        rw [hdl'] at hcss
        simp only [] at hcss
        rcases hpf with ⟨hnef, hlaf, hbuff, hwf⟩ | ⟨heqf, hlaf, hbuff, hcf, hsf⟩
        · by_cases h125 : stf.la = .chr 125
          · have hx125 : stxf.la = .chr 125 := hlaf.trans h125
            rw [if_pos hx125] at hcss
            cases hnn : next (G+1) stxf with
            | error e =>
              rw [hnn] at hcss
              simp only [] at hcss
              exact Except.noConfusion hcss
            | ok stA =>
              rw [hnn] at hcss
              simp only [] at hcss
              cases hsl : styLoop G stA with
              | error e =>
                rw [hsl] at hcss
                simp only [] at hcss
                exact Except.noConfusion hcss
              | ok pr2 =>
                obtain ⟨rs, stB⟩ := pr2
                rw [hsl] at hcss
                simp only [] at hcss
                simp at hcss
                rw [← hcss.1]
          · have hx : stxf.la ≠ .chr 125 := by rw [hlaf]; exact h125
            rw [if_neg hx] at hcss
            simp only [] at hcss
            exact Except.noConfusion hcss
        · rw [if_pos hlaf] at hcss
          rw [next_c0 (by rw [hbuff]; exact hcf)] at hcss
          simp only [] at hcss
          cases G with
          | zero =>
            simp only [styLoop] at hcss
            exact Except.noConfusion hcss
          | succ G2 =>
            rw [styLoop_eof] at hcss
            simp only [] at hcss
            simp at hcss
            rw [← hcss]

theorem c5_inline_equiv_witness :
    Rule.declaration ⟨[Selector.mk none 0 [] none none],
        [⟨bytes "a", [.mk .keyword (bytes "b") []], 0⟩], []⟩ =
      [⟨bytes "a", [.mk .keyword (bytes "b") []], 0⟩] :=
  c5_inline_equiv 30 (bytes "a:b") _ _ (by decide)
    (by simp +decide [fz_parse_css_properties, next, css_lex, css_lex_loop, skip_white,
      skip_comment, skip_stars, css_lex_next, css_lex_init, css_lex_expect, css_push_char,
      css_lex_number, css_lex_keyword, css_lex_string, css_lex_color, css_lex_url,
      css_lex_minus, lexDigits, lexNmchars, ishex, hex6, hexDig, iswhite,
      isnmstart, isnmchar, isdigit, tokStr, bytes,
      parse_declaration_list, declLoop, parse_declaration, parse_value, parse_value_list,
      expect, accept, iscond])
    (by simp +decide [fz_parse_css, next, css_lex, css_lex_loop, skip_white, skip_comment,
      skip_stars, css_lex_next, css_lex_init, css_lex_expect, css_push_char, css_lex_number,
      css_lex_keyword, css_lex_string, css_lex_color, css_lex_url, css_lex_minus,
      lexDigits, lexNmchars, ishex, hex6, hexDig, iswhite,
      isnmstart, isnmchar, isdigit, tokStr, bytes, parse_stylesheet, styLoop, parse_at_rule,
      atLoop, skipBlock, parse_rule, parse_selector_list, selLoop, parse_descendant_selector,
      parse_child_selector, parse_adjacent_selector, parse_simple_selector,
      parse_condition_list, condLoop, parse_condition, parse_attrib_value,
      parse_declaration_list, declLoop, parse_declaration, parse_value, parse_value_list,
      expect, accept, iscond])
